import Mathlib

/-!
Shallow embedding of `src/cors.ts` (schardev/cors-headers).

The repository computes the CORS response headers for a single request.
JavaScript values are modelled as follows: strings are `String`, the
`string | null` results of `Request.headers.get` are `Option String`
(JavaScript truthiness of such a value is `optTruthy`), regular
expressions are modelled by their `test` function `String → Bool`,
arrays are `List`s, and the web `Headers` collection is a list of
(lower-cased name, value) entries with `set`/`append`/`get` following
the fetch standard (`get` joins multiple values with a comma and a
space).  Thrown exceptions are modelled with `Except String`.
-/

namespace Cors

/-- ASCII `toLowerCase`, mapped over the characters (the kernel-reducible
counterpart of `String.toLower`). -/
def toLowerStr (s : String) : String := ⟨s.data.map Char.toLower⟩

/-- ASCII `toUpperCase`, mapped over the characters (the kernel-reducible
counterpart of `String.toUpper`). -/
def toUpperStr (s : String) : String := ⟨s.data.map Char.toUpper⟩

/-- A JavaScript value that can appear in the `value` field of a header
object in `cors.ts`: a string, a boolean, or `null`/`undefined`. -/
inductive HVal where
  | str (s : String)
  | bool (b : Bool)
  | null
deriving DecidableEq

/-- JavaScript truthiness of an `HVal`. -/
def HVal.truthy : HVal → Bool
  | .str s => s != ""
  | .bool b => b
  | .null => false

/-- JavaScript `String(value)` for an `HVal`. -/
def HVal.toStr : HVal → String
  | .str s => s
  | .bool true => "true"
  | .bool false => "false"
  | .null => "null"

/-- The `HeaderObj` type of `cors.ts`: a key/value pair. -/
structure HeaderObj where
  key : String
  value : HVal

/-- One element of the `headersArr` array built by `cors`:
`undefined`, a single header object, or an array of header objects. -/
inductive HEntry where
  | undefined
  | obj (h : HeaderObj)
  | arr (hs : List HeaderObj)

/-- The web `Headers` collection: a header list of
(lower-cased name, value) entries, in insertion order. -/
structure Headers where
  entries : List (String × String)
deriving DecidableEq

/-- `Headers.set` on the underlying header list (names already
lower-cased): replace the value of the first entry with the given name
and remove the other entries with that name; append if absent. -/
def setEntries (n v : String) : List (String × String) → List (String × String)
  | [] => [(n, v)]
  | (k, w) :: rest =>
    if k == n then (k, v) :: rest.filter (fun p => !(p.1 == n))
    else (k, w) :: setEntries n v rest

/-- `headers.set(name, value)` of the fetch standard. -/
def Headers.set (h : Headers) (name value : String) : Headers :=
  ⟨setEntries (toLowerStr name) value h.entries⟩

/-- `headers.append(name, value)` of the fetch standard. -/
def Headers.append (h : Headers) (name value : String) : Headers :=
  ⟨h.entries ++ [(toLowerStr name, value)]⟩

/-- All values stored under a (case-insensitive) name, in order. -/
def Headers.getAll (h : Headers) (name : String) : List String :=
  (h.entries.filter (fun p => p.1 == toLowerStr name)).map (fun p => p.2)

/-- `headers.get(name)`: `null` when absent, otherwise the values
joined with a comma and a space. -/
def Headers.get (h : Headers) (name : String) : Option String :=
  match h.getAll name with
  | [] => none
  | vs => some (String.intercalate ", " vs)

/-- `headers.has(name)`. -/
def Headers.has (h : Headers) (name : String) : Bool :=
  h.entries.any (fun p => p.1 == toLowerStr name)

/-- The request view used by `cors.ts`: the HTTP method and the two
request headers the code reads (`req.headers.get("origin")` and
`req.headers.get("access-control-request-headers")`), each a string or
`null`. -/
structure Request where
  method : String
  originHeader : Option String
  acrhHeader : Option String

/-- JavaScript truthiness of a `string | null` value. -/
def optTruthy : Option String → Bool
  | none => false
  | some s => s != ""

/-- The `CORSOrigin` runtime values after callback resolution: a
boolean, a string, a regular expression (modelled by its `test`
function), or an array of such values. -/
inductive CORSOrigin where
  | bool (b : Bool)
  | str (s : String)
  | regex (test : String → Bool)
  | list (items : List CORSOrigin)

/-- The `origin` configuration field before callback resolution: a
`CORSOrigin` value or a callback from the request origin; a callback
may (erroneously) return another callback, which `cors` rejects. -/
inductive OriginInput where
  | val (o : CORSOrigin)
  | fn (f : Option String → OriginInput)

/-- A `string | string[]` configuration value. -/
inductive StrOrList where
  | str (s : String)
  | list (l : List String)
deriving DecidableEq

/-- Array values are joined with commas (`xs.join(",")`); strings are
kept as they are. -/
def joinStrOrList : StrOrList → String
  | .str s => s
  | .list l => String.intercalate "," l

/-- The merged `CORSOptions` object (`origin` not yet resolved).
`allowedHeaders`, `exposedHeaders` and `maxAge` are absent in the
defaults, hence optional. -/
structure CORSOptions where
  origin : OriginInput
  allowedMethods : StrOrList
  credentials : Bool
  allowedHeaders : Option StrOrList := none
  exposedHeaders : Option StrOrList := none
  maxAge : Option Int := none

/-- `CORSOptions` after the origin callback has been resolved. -/
structure ResolvedOptions where
  origin : CORSOrigin
  allowedMethods : StrOrList
  credentials : Bool
  allowedHeaders : Option StrOrList
  exposedHeaders : Option StrOrList
  maxAge : Option Int

/-- A `Partial<CORSOptions>` object: each field is either absent
(`none`) or present. -/
structure PartialOptions where
  origin : Option OriginInput := none
  allowedMethods : Option StrOrList := none
  credentials : Option Bool := none
  allowedHeaders : Option StrOrList := none
  exposedHeaders : Option StrOrList := none
  maxAge : Option Int := none

/-- The `options` argument of `cors`: a partial options object or a
callback from the request origin to a partial options object. -/
inductive CorsConfig where
  | opts (o : PartialOptions)
  | fn (f : Option String → PartialOptions)

/-- The module-level `defaults` constant of `cors.ts`. -/
def defaults : CORSOptions :=
  { origin := .val (.str "*")
    allowedMethods := .str "GET,HEAD,PUT,PATCH,POST,DELETE"
    credentials := false }

/-- The object spread `\x7b ...d, ...p \x7d`: fields present in `p`
override `d`. -/
def mergeOptions (d : CORSOptions) (p : PartialOptions) : CORSOptions :=
  { origin := p.origin.getD d.origin
    allowedMethods := p.allowedMethods.getD d.allowedMethods
    credentials := p.credentials.getD d.credentials
    allowedHeaders := p.allowedHeaders.orElse (fun _ => d.allowedHeaders)
    exposedHeaders := p.exposedHeaders.orElse (fun _ => d.exposedHeaders)
    maxAge := p.maxAge.orElse (fun _ => d.maxAge) }

mutual

/-- `isOriginAllowed` of `cors.ts`: arrays are scanned left to right
with an early return, strings are compared with `===`, regular
expressions are tested, and every other value is judged by its
truthiness (`!!allowedOrigin`). -/
def isOriginAllowed (origin : String) : CORSOrigin → Bool
  | .list items => anyOriginAllowed origin items
  | .str s => origin == s
  | .regex t => t origin
  | .bool b => b

/-- The `for` loop inside `isOriginAllowed`, returning `true` on the
first allowed element. -/
def anyOriginAllowed (origin : String) : List CORSOrigin → Bool
  | [] => false
  | a :: rest => isOriginAllowed origin a || anyOriginAllowed origin rest

end

/-- JavaScript truthiness of a resolved `CORSOrigin` value
(the `!optsOrigin` and `if (corsOptions.origin)` tests). -/
def truthyOrigin : CORSOrigin → Bool
  | .bool b => b
  | .str s => s != ""
  | .regex _ => true
  | .list _ => true

/-- The `optsOrigin === "*"` test. -/
def isStarLit : CORSOrigin → Bool
  | .str s => s == "*"
  | _ => false

/-- Converts a `string | null` value into a header value. -/
def hvalOfOptString : Option String → HVal
  | some s => .str s
  | none => .null

/-- The `requestOrigin ? isOriginAllowed(requestOrigin, optsOrigin) : false`
test of `configureOrigin`. -/
def reqOriginAllowed (requestOrigin : Option String) (optsOrigin : CORSOrigin) : Bool :=
  match requestOrigin with
  | none => false
  | some o => if o == "" then false else isOriginAllowed o optsOrigin

/-- `configureOrigin` of `cors.ts`. -/
def configureOrigin (options : ResolvedOptions) (req : Request) : List HeaderObj :=
  let requestOrigin := req.originHeader
  let optsOrigin := options.origin
  if !truthyOrigin optsOrigin || isStarLit optsOrigin then
    [⟨"Access-Control-Allow-Origin", .str "*"⟩]
  else
    match optsOrigin with
    | .str s =>
      [⟨"Access-Control-Allow-Origin", .str s⟩, ⟨"Vary", .str "Origin"⟩]
    | o =>
      let isAllowed := reqOriginAllowed requestOrigin o
      [⟨"Access-Control-Allow-Origin",
        if isAllowed then hvalOfOptString requestOrigin else .bool false⟩,
       ⟨"Vary", .str "Origin"⟩]

/-- `configureMethods` of `cors.ts`. -/
def configureMethods (options : ResolvedOptions) : Option HeaderObj :=
  let methods := joinStrOrList options.allowedMethods
  if methods != "" then some ⟨"Access-Control-Allow-Methods", .str methods⟩
  else none

/-- `configureCredentials` of `cors.ts`. -/
def configureCredentials (options : ResolvedOptions) : Option HeaderObj :=
  if options.credentials then some ⟨"Access-Control-Allow-Credentials", .bool true⟩
  else none

/-- `configureAllowedHeaders` of `cors.ts`: a configured value is
joined; a missing or empty configured value falls back to reflecting
the request's `Access-Control-Request-Headers` header, adding a `Vary`
entry when that header is truthy. -/
def configureAllowedHeaders (options : ResolvedOptions) (req : Request) : List HeaderObj :=
  let joined : Option String := options.allowedHeaders.map joinStrOrList
  let reflect := !optTruthy joined
  let allowedHeaders : Option String := if reflect then req.acrhHeader else joined
  let varyHeaders : List HeaderObj :=
    if reflect && optTruthy req.acrhHeader then
      [⟨"Vary", .str "Access-Control-Request-Headers"⟩]
    else []
  let allowHeaders : List HeaderObj :=
    if optTruthy allowedHeaders then
      [⟨"Access-Control-Allow-Headers", .str (allowedHeaders.getD "")⟩]
    else []
  varyHeaders ++ allowHeaders

/-- `configureExposedHeaders` of `cors.ts`. -/
def configureExposedHeaders (options : ResolvedOptions) : Option HeaderObj :=
  let exposeHeaders : Option String := options.exposedHeaders.map joinStrOrList
  if optTruthy exposeHeaders then
    some ⟨"Access-Control-Expose-Headers", .str (exposeHeaders.getD "")⟩
  else none

/-- `configureMaxAge` of `cors.ts`: emitted iff `maxAge` is a number,
since `String(maxAge)` is never empty. -/
def configureMaxAge (options : ResolvedOptions) : Option HeaderObj :=
  let maxAge : Option String := options.maxAge.map (fun n => toString n)
  match maxAge with
  | some s => if s != "" then some ⟨"Access-Control-Max-Age", .str s⟩ else none
  | none => none

/-- The body of the loop in `applyHeaders` for a single header object:
a truthy `Vary` value is appended, any other truthy value is set, and
falsy values are skipped. -/
def applyHeader (headers : Headers) (h : HeaderObj) : Headers :=
  if h.key == "Vary" && h.value.truthy then headers.append h.key h.value.toStr
  else if h.value.truthy then headers.set h.key h.value.toStr
  else headers

/-- One step of `applyHeaders`: skip `undefined`, recurse into arrays,
apply single header objects. -/
def applyEntry (headers : Headers) (e : HEntry) : Headers :=
  match e with
  | .undefined => headers
  | .obj h => applyHeader headers h
  | .arr hs => hs.foldl applyHeader headers

/-- `applyHeaders` of `cors.ts`. -/
def applyHeaders (headersArr : List HEntry) (headers : Headers) : Headers :=
  headersArr.foldl applyEntry headers

/-- Wraps an optional header object for `headersArr.push(...)`. -/
def optEntry : Option HeaderObj → HEntry
  | some h => .obj h
  | none => .undefined

/-- The origin-callback resolution step of `cors`: a callback is
invoked once with the request origin; a callback returning another
callback throws. -/
def resolveOrigin (oi : OriginInput) (reqOrigin : Option String) : Except String CORSOrigin :=
  match oi with
  | .val o => .ok o
  | .fn f =>
    match f reqOrigin with
    | .val o => .ok o
    | .fn _ => .error "Origin callback result cannot be a function."

/-- Replaces the `origin` field of merged options with its resolved
value (`corsOptions.origin = originCallbackResult`). -/
def withOrigin (o : CORSOptions) (ov : CORSOrigin) : ResolvedOptions :=
  { origin := ov
    allowedMethods := o.allowedMethods
    credentials := o.credentials
    allowedHeaders := o.allowedHeaders
    exposedHeaders := o.exposedHeaders
    maxAge := o.maxAge }

/-- The `headersArr` built by `cors`: nothing when the resolved origin
is falsy, the preflight list when the upper-cased method is `OPTIONS`,
and the actual-response list otherwise. -/
def buildHeadersArr (req : Request) (o : ResolvedOptions) : List HEntry :=
  if truthyOrigin o.origin then
    if toUpperStr req.method == "OPTIONS" then
      [.arr (configureOrigin o req),
       optEntry (configureCredentials o),
       optEntry (configureMethods o),
       .arr (configureAllowedHeaders o req),
       optEntry (configureMaxAge o),
       optEntry (configureExposedHeaders o),
       .obj ⟨"Content-Length", .str "0"⟩]
    else
      [.arr (configureOrigin o req),
       optEntry (configureCredentials o),
       optEntry (configureExposedHeaders o)]
  else []

/-- The header collection returned by `cors` for resolved options. -/
def corsResolved (req : Request) (o : ResolvedOptions) : Headers :=
  applyHeaders (buildHeadersArr req o) ⟨[]⟩

/-- The merged options object before origin resolution: a config
callback is invoked once with the request origin and its result merged
over the defaults; a plain object is merged directly. -/
def mergedOptions (req : Request) (options : CorsConfig) : CORSOptions :=
  match options with
  | .fn f => mergeOptions defaults (f req.originHeader)
  | .opts o => mergeOptions defaults o

/-- The entry point `cors(req, options)` of `cors.ts`, returning the
fresh `Headers` collection or the thrown error message. -/
def cors (req : Request) (options : CorsConfig) : Except String Headers :=
  let corsOptions := mergedOptions req options
  match resolveOrigin corsOptions.origin req.originHeader with
  | .error e => .error e
  | .ok ov => .ok (corsResolved req (withOrigin corsOptions ov))

/-- The header collection returned by `cors`, defaulting to the empty
collection in the (impossible for these uses) error case. -/
def corsHeadersD (req : Request) (options : CorsConfig) : Headers :=
  match cors req options with
  | .ok h => h
  | .error _ => ⟨[]⟩

/-! ### Basic lemmas about the header collection -/

theorem intercalate_singleton (s x : String) : String.intercalate s [x] = x := rfl

theorem filter_setEntries_self (n v : String) (l : List (String × String)) :
    (setEntries n v l).filter (fun p => p.1 == n) = [(n, v)] := by
  induction l with
  | nil => simp [setEntries]
  | cons hd tl ih =>
    obtain ⟨k, w⟩ := hd
    by_cases hk : (k == n) = true
    · have hkn : k = n := eq_of_beq hk
      simp only [setEntries, hk, if_true, List.filter_cons, List.filter_filter]
      have hpred : (fun p : String × String => (p.1 == n) && !(p.1 == n)) = fun _ => false := by
        funext p; exact Bool.and_not_self _
      simp [hpred, hkn]
    · have hk2 : (k == n) = false := by simpa using hk
      simp only [setEntries, hk2, Bool.false_eq_true, if_false, List.filter_cons]
      simp [hk2, ih]

theorem filter_setEntries_ne (n v m : String) (hnm : (n == m) = false)
    (l : List (String × String)) :
    (setEntries n v l).filter (fun p => p.1 == m) = l.filter (fun p => p.1 == m) := by
  induction l with
  | nil => simp [setEntries, hnm]
  | cons hd tl ih =>
    obtain ⟨k, w⟩ := hd
    by_cases hk : (k == n) = true
    · have hkn : k = n := eq_of_beq hk
      have hkm : (k == m) = false := by rw [hkn]; exact hnm
      simp only [setEntries, hk, if_true, List.filter_cons, hkm,
        Bool.false_eq_true, if_false, List.filter_filter]
      refine (List.filter_congr ?_).symm
      intro p _
      by_cases hp : (p.1 == m) = true
      · have hpn : (p.1 == n) = false := by
          have hpm : p.1 = m := eq_of_beq hp
          rw [hpm]
          simp only [beq_eq_false_iff_ne] at hnm ⊢
          exact fun e => hnm e.symm
        simp [hp, hpn]
      · have hp2 : (p.1 == m) = false := by simpa using hp
        simp [hp2]
    · have hk2 : (k == n) = false := by simpa using hk
      simp only [setEntries, hk2, Bool.false_eq_true, if_false, List.filter_cons]
      by_cases hkm : (k == m) = true
      · simp [hkm, ih]
      · have hkm2 : (k == m) = false := by simpa using hkm
        simp [hkm2, ih]

theorem getAll_set_self (h : Headers) (n v m : String)
    (hnm : toLowerStr n = toLowerStr m) :
    (h.set n v).getAll m = [v] := by
  simp only [Headers.set, Headers.getAll, hnm]
  rw [filter_setEntries_self]
  rfl

theorem getAll_set_ne (h : Headers) (n v m : String)
    (hnm : (toLowerStr n == toLowerStr m) = false) :
    (h.set n v).getAll m = h.getAll m := by
  simp only [Headers.set, Headers.getAll]
  rw [filter_setEntries_ne _ _ _ hnm]

theorem getAll_append_self (h : Headers) (n v m : String)
    (hnm : toLowerStr n = toLowerStr m) :
    (h.append n v).getAll m = h.getAll m ++ [v] := by
  simp [Headers.append, Headers.getAll, List.filter_append, hnm]

theorem getAll_append_ne (h : Headers) (n v m : String)
    (hnm : (toLowerStr n == toLowerStr m) = false) :
    (h.append n v).getAll m = h.getAll m := by
  simp [Headers.append, Headers.getAll, List.filter_append, hnm]

theorem get_set_self (h : Headers) (n v m : String)
    (hnm : toLowerStr n = toLowerStr m) :
    (h.set n v).get m = some v := by
  simp [Headers.get, getAll_set_self h n v m hnm, intercalate_singleton]

theorem getAll_nil (m : String) : (Headers.mk []).getAll m = [] := rfl

theorem get_nil (m : String) : (Headers.mk []).get m = none := rfl

theorem get_eq_none_iff (h : Headers) (m : String) :
    h.get m = none ↔ h.getAll m = [] := by
  unfold Headers.get
  cases hg : h.getAll m <;> simp

theorem has_eq_getAll (h : Headers) (m : String) :
    h.has m = !(h.getAll m).isEmpty := by
  obtain ⟨l⟩ := h
  induction l with
  | nil => rfl
  | cons hd tl ih =>
    simp only [Headers.has, Headers.getAll, List.any_cons, List.filter_cons] at ih ⊢
    by_cases hp : (hd.1 == toLowerStr m) = true
    · simp [hp]
    · have : (hd.1 == toLowerStr m) = false := by simpa using hp
      simp [this, ih]

/-! ### Lemmas about applying header directives -/

theorem applyHeader_falsy (h : Headers) (ho : HeaderObj)
    (hv : ho.value.truthy = false) : applyHeader h ho = h := by
  simp [applyHeader, hv]

theorem applyHeader_set (h : Headers) (k : String) (v : HVal)
    (hk : (k == "Vary") = false) (hv : v.truthy = true) :
    applyHeader h ⟨k, v⟩ = h.set k v.toStr := by
  simp [applyHeader, hk, hv]

theorem applyHeader_vary_append (h : Headers) (v : HVal)
    (hv : v.truthy = true) :
    applyHeader h ⟨"Vary", v⟩ = h.append "Vary" v.toStr := by
  simp [applyHeader, hv]

theorem getAll_applyHeader_ne (h : Headers) (ho : HeaderObj) (m : String)
    (hk : (toLowerStr ho.key == toLowerStr m) = false) :
    (applyHeader h ho).getAll m = h.getAll m := by
  unfold applyHeader
  split
  · exact getAll_append_ne h ho.key _ m hk
  · split
    · exact getAll_set_ne h ho.key _ m hk
    · rfl

theorem getAll_foldl_ne (hs : List HeaderObj) (h : Headers) (m : String)
    (hk : ∀ ho ∈ hs, (toLowerStr ho.key == toLowerStr m) = false) :
    (hs.foldl applyHeader h).getAll m = h.getAll m := by
  induction hs generalizing h with
  | nil => rfl
  | cons hd tl ih =>
    simp only [List.foldl_cons]
    rw [ih _ (fun ho hmem => hk ho (List.mem_cons_of_mem hd hmem)),
      getAll_applyHeader_ne h hd m (hk hd (List.mem_cons_self hd tl))]

theorem getAll_applyEntry_opt (h : Headers) (x : Option HeaderObj) (m : String)
    (hk : ∀ ho, x = some ho → (toLowerStr ho.key == toLowerStr m) = false) :
    (applyEntry h (optEntry x)).getAll m = h.getAll m := by
  cases x with
  | none => rfl
  | some ho => exact getAll_applyHeader_ne h ho m (hk ho rfl)

theorem getAll_applyEntry_arr (h : Headers) (hs : List HeaderObj) (m : String)
    (hk : ∀ ho ∈ hs, (toLowerStr ho.key == toLowerStr m) = false) :
    (applyEntry h (.arr hs)).getAll m = h.getAll m :=
  getAll_foldl_ne hs h m hk

/-! ### Key facts for the configure functions -/

theorem configureMethods_key (o : ResolvedOptions) (ho : HeaderObj)
    (hx : configureMethods o = some ho) : ho.key = "Access-Control-Allow-Methods" := by
  simp only [configureMethods] at hx
  split at hx
  · cases hx; rfl
  · cases hx

theorem configureCredentials_key (o : ResolvedOptions) (ho : HeaderObj)
    (hx : configureCredentials o = some ho) : ho.key = "Access-Control-Allow-Credentials" := by
  simp only [configureCredentials] at hx
  split at hx
  · cases hx; rfl
  · cases hx

theorem configureExposedHeaders_key (o : ResolvedOptions) (ho : HeaderObj)
    (hx : configureExposedHeaders o = some ho) : ho.key = "Access-Control-Expose-Headers" := by
  simp only [configureExposedHeaders] at hx
  split at hx
  · cases hx; rfl
  · cases hx

theorem configureMaxAge_key (o : ResolvedOptions) (ho : HeaderObj)
    (hx : configureMaxAge o = some ho) : ho.key = "Access-Control-Max-Age" := by
  simp only [configureMaxAge] at hx
  split at hx
  · split at hx
    · cases hx; rfl
    · cases hx
  · cases hx

theorem configureOrigin_keys (o : ResolvedOptions) (req : Request) :
    ∀ ho ∈ configureOrigin o req,
      ho.key = "Access-Control-Allow-Origin" ∨ ho.key = "Vary" := by
  simp only [configureOrigin]
  split
  · intro ho hmem
    simp only [List.mem_singleton] at hmem
    subst hmem; left; rfl
  · split
    · intro ho hmem
      simp only [List.mem_cons, List.mem_singleton] at hmem
      rcases hmem with h1 | h1 | h1
      · subst h1; left; rfl
      · subst h1; right; rfl
      · cases h1
    · intro ho hmem
      simp only [List.mem_cons, List.mem_singleton] at hmem
      rcases hmem with h1 | h1 | h1
      · subst h1; left; rfl
      · subst h1; right; rfl
      · cases h1

theorem configureAllowedHeaders_keys (o : ResolvedOptions) (req : Request) :
    ∀ ho ∈ configureAllowedHeaders o req,
      ho.key = "Vary" ∨ ho.key = "Access-Control-Allow-Headers" := by
  have memIf : ∀ (c : Bool) (a x : HeaderObj),
      x ∈ (if c = true then [a] else ([] : List HeaderObj)) → x = a := by
    intro c a x hx
    cases c
    · simp at hx
    · simpa using hx
  simp only [configureAllowedHeaders]
  intro ho hmem
  rcases List.mem_append.mp hmem with h1 | h1
  · left; rw [memIf _ _ _ h1]
  · right; rw [memIf _ _ _ h1]

/-! ### Auxiliary facts -/

theorem toDigitsCore_length_ge (b : Nat) (fuel n : Nat) (acc : List Char) :
    acc.length ≤ (Nat.toDigitsCore b fuel n acc).length := by
  induction fuel generalizing n acc with
  | zero => simp [Nat.toDigitsCore]
  | succ f ih =>
    unfold Nat.toDigitsCore
    dsimp only
    split
    · simp
    · exact le_trans (by simp) (ih _ _)

theorem toDigits_ne_nil (b n : Nat) : Nat.toDigits b n ≠ [] := by
  unfold Nat.toDigits Nat.toDigitsCore
  dsimp only
  split
  · simp
  · intro h
    have hlen := toDigitsCore_length_ge b n (n / b) [Nat.digitChar (n % b)]
    rw [h] at hlen
    simp at hlen

theorem nat_repr_ne_empty (n : Nat) : Nat.repr n ≠ "" := by
  unfold Nat.repr
  intro h
  have hdata : (Nat.toDigits 10 n).asString.data = "".data := by rw [h]
  simp [List.asString] at hdata
  exact toDigits_ne_nil 10 n hdata

theorem int_toString_ne_empty (n : Int) : toString n ≠ "" := by
  show Int.repr n ≠ ""
  match n with
  | .ofNat m => exact nat_repr_ne_empty m
  | .negSucc m =>
    have hr : Int.repr (Int.negSucc m) = "-" ++ (m + 1).repr := rfl
    rw [hr]
    intro h
    have hdata : ("-" ++ (m + 1).repr).data = "".data := by rw [h]
    simp at hdata

/-- When origin resolution succeeds with value `rule`, `cors` returns the
headers computed from the merged options with `origin` replaced by `rule`. -/
theorem cors_ok (req : Request) (cfg : CorsConfig) (rule : CORSOrigin)
    (hres : resolveOrigin (mergedOptions req cfg).origin req.originHeader = .ok rule) :
    cors req cfg = .ok (corsResolved req (withOrigin (mergedOptions req cfg) rule)) := by
  simp only [cors, hres]

/-- The resolved origin field is a callback returning a callback. -/
def isNestedOriginCallback : OriginInput → Option String → Bool
  | .fn f, ro =>
    match f ro with
    | .fn _ => true
    | .val _ => false
  | .val _, _ => false

/-! ### Claim C2 -/

/-- Claim C2: for every request and configuration whose resolved origin
rule is `false`, the returned header collection is empty (so it contains
none of the CORS headers, `Vary`, or `Content-Length`), regardless of
method and of the other configured fields. -/
theorem claimC2 (req : Request) (cfg : CorsConfig)
    (hres : resolveOrigin (mergedOptions req cfg).origin req.originHeader = .ok (.bool false)) :
    cors req cfg = .ok ⟨[]⟩ := by
  rw [cors_ok req cfg _ hres]
  simp [corsResolved, buildHeadersArr, withOrigin, truthyOrigin, applyHeaders]

/-- Witness for C2: Scenario D, a GET request with
`origin: false, allowedMethods: ["FOO"], credentials: true`. -/
theorem claimC2_witness :
    cors ⟨"GET", some "https://example.com", none⟩
      (.opts { origin := some (.val (.bool false)),
               allowedMethods := some (.list ["FOO"]),
               credentials := some true }) = .ok ⟨[]⟩ :=
  claimC2 ⟨"GET", some "https://example.com", none⟩
    (.opts { origin := some (.val (.bool false)),
             allowedMethods := some (.list ["FOO"]),
             credentials := some true }) rfl

/-! ### Claim C5 -/

/-- Claim C5: `cors` throws exactly when the resolved origin field is a
callback whose invocation returns another callback; for every other
input it completes and yields a header collection. -/
theorem claimC5 (req : Request) (cfg : CorsConfig) :
    (isNestedOriginCallback (mergedOptions req cfg).origin req.originHeader = true →
      cors req cfg = .error "Origin callback result cannot be a function.") ∧
    (isNestedOriginCallback (mergedOptions req cfg).origin req.originHeader = false →
      ∃ hs, cors req cfg = .ok hs) := by
  constructor <;> intro h
  · cases horig : (mergedOptions req cfg).origin with
    | val o => rw [horig] at h; simp [isNestedOriginCallback] at h
    | fn f =>
      rw [horig] at h
      cases hf : f req.originHeader with
      | val o => rw [isNestedOriginCallback, hf] at h; cases h
      | fn g => simp [cors, resolveOrigin, horig, hf]
  · cases horig : (mergedOptions req cfg).origin with
    | val o => exact ⟨_, cors_ok req cfg o (by simp [resolveOrigin, horig])⟩
    | fn f =>
      rw [horig] at h
      cases hf : f req.originHeader with
      | val o => exact ⟨_, cors_ok req cfg o (by simp [resolveOrigin, horig, hf])⟩
      | fn g => rw [isNestedOriginCallback, hf] at h; cases h

/-- Witness for C5: a nested origin callback throws, and the default
configuration completes with a header collection. -/
theorem claimC5_witness :
    cors ⟨"GET", some "https://example.com", none⟩
      (.opts { origin := some (.fn (fun _ => .fn (fun _ => .val (.bool true)))) }) =
      .error "Origin callback result cannot be a function." ∧
    ∃ hs, cors ⟨"GET", some "https://example.com", none⟩ (.opts {}) = .ok hs :=
  ⟨(claimC5 ⟨"GET", some "https://example.com", none⟩
      (.opts { origin := some (.fn (fun _ => .fn (fun _ => .val (.bool true)))) })).1 rfl,
   (claimC5 ⟨"GET", some "https://example.com", none⟩ (.opts {})).2 rfl⟩

/-! ### Claim C10 -/

/-- Claim C10: in `isOriginAllowed`, a list item that is neither an
array, a string, nor a regular expression is judged by its truthiness:
a list containing the literal `true` allows every origin, and a list
whose items are all the falsy value `false` allows none. -/
theorem claimC10 :
    (∀ (o : String) (pre post : List CORSOrigin),
      isOriginAllowed o (.list (pre ++ .bool true :: post)) = true) ∧
    (∀ (o : String) (l : List CORSOrigin), (∀ x ∈ l, x = .bool false) →
      isOriginAllowed o (.list l) = false) := by
  constructor
  · intro o pre post
    rw [isOriginAllowed]
    induction pre with
    | nil => simp [anyOriginAllowed, isOriginAllowed]
    | cons a rest ih =>
      rw [List.cons_append, anyOriginAllowed, ih, Bool.or_true]
  · intro o l hl
    rw [isOriginAllowed]
    induction l with
    | nil => rw [anyOriginAllowed]
    | cons a rest ih =>
      rw [anyOriginAllowed, hl a (List.mem_cons_self a rest), isOriginAllowed,
        ih (fun x hx => hl x (List.mem_cons_of_mem a hx)), Bool.or_false]

/-- Witness for C10 at concrete lists. -/
theorem claimC10_witness :
    isOriginAllowed "https://example.com" (.list [.str "x", .bool true]) = true ∧
    isOriginAllowed "https://example.com" (.list [.bool false]) = false :=
  ⟨claimC10.1 "https://example.com" [.str "x"] [],
   claimC10.2 "https://example.com" [.bool false]
     (fun x hx => by simpa using hx)⟩

/-! ### Counterexamples for the corrected claims -/

/-- Counterexample to claim C1 as stated: an OPTIONS request with no
`Origin` header but with `Access-Control-Request-Headers: X-Header-1`,
under the default configuration, returns a collection that does contain
a `Vary` header (with value `Access-Control-Request-Headers`). -/
theorem claimC1_cex :
    (cors ⟨"OPTIONS", none, some "X-Header-1"⟩ (.opts {})).isOk = true ∧
    (corsHeadersD ⟨"OPTIONS", none, some "X-Header-1"⟩ (.opts {})).get "Vary" =
      some "Access-Control-Request-Headers" := by
  exact ⟨rfl, rfl⟩

/-- Counterexample to claim C3 as stated: for the rule `true` (which
allows every origin) and a request whose `Origin` header is present with
the empty value, the rule judges the origin allowed yet
`Access-Control-Allow-Origin` is absent from the result. -/
theorem claimC3_cex :
    isOriginAllowed "" (.bool true) = true ∧
    (cors ⟨"GET", some "", none⟩ (.opts { origin := some (.val (.bool true)) })).isOk = true ∧
    (corsHeadersD ⟨"GET", some "", none⟩
      (.opts { origin := some (.val (.bool true)) })).get "Access-Control-Allow-Origin" =
      none := by
  refine ⟨?_, rfl, rfl⟩
  rw [isOriginAllowed]

/-- Counterexample to claim C4 as stated: the configured origin string
`""` is a non-wildcard literal, yet the returned collection contains
neither `Access-Control-Allow-Origin: ""` nor `Vary: Origin` — the call
returns the empty collection. -/
theorem claimC4_cex :
    ("" == "*") = false ∧
    cors ⟨"GET", some "https://example.com", none⟩
      (.opts { origin := some (.val (.str "")) }) = .ok ⟨[]⟩ := by
  exact ⟨rfl, rfl⟩

/-- Counterexample to claim C6 as stated: an OPTIONS request carrying an
`Origin` header and an `Access-Control-Request-Headers` header whose
value is empty, with a fixed non-wildcard origin and `allowedHeaders`
unset, returns `Vary: Origin` rather than
`Vary: Origin, Access-Control-Request-Headers`. -/
theorem claimC6_cex :
    (corsHeadersD ⟨"OPTIONS", some "https://example.com", some ""⟩
      (.opts { origin := some (.val (.str "https://example-1.com")) })).get "Vary" =
      some "Origin" := by
  exact rfl

/-- Counterexample to claim C7 as stated: with `allowedHeaders` set to
the empty array, an OPTIONS request carrying
`Access-Control-Request-Headers: X-H1` receives the reflected value and
an `Access-Control-Request-Headers` entry in `Vary`, not the (empty)
joined configured value. -/
theorem claimC7_cex :
    (corsHeadersD ⟨"OPTIONS", some "https://example.com", some "X-H1"⟩
      (.opts { allowedHeaders := some (.list []) })).get "Access-Control-Allow-Headers" =
      some "X-H1" ∧
    (corsHeadersD ⟨"OPTIONS", some "https://example.com", some "X-H1"⟩
      (.opts { allowedHeaders := some (.list []) })).getAll "Vary" =
      ["Access-Control-Request-Headers"] := by
  exact ⟨rfl, rfl⟩

/-! ### Claim C9: the caller's configuration object is never mutated

To talk about mutation of JavaScript objects, configuration objects are
given identities in a small object store.  `cors` creates a fresh
working object with the spread `\x7b ...defaults, ...options \x7d` and
the later `corsOptions.origin = originCallbackResult` assignment writes
to that fresh object only; `corsHeap` makes those allocations and
writes explicit. -/

/-- A store of configuration objects; an object reference is an index. -/
structure Store where
  objs : List PartialOptions

/-- Reads the object at a reference (out-of-range reads are irrelevant;
they default to the empty partial object). -/
def Store.read (s : Store) (r : Nat) : PartialOptions :=
  s.objs.getD r {}

/-- Allocates a fresh object, returning the new store and its reference. -/
def Store.alloc (s : Store) (o : PartialOptions) : Store × Nat :=
  (⟨s.objs ++ [o]⟩, s.objs.length)

/-- Overwrites the object at a reference. -/
def Store.write (s : Store) (r : Nat) (o : PartialOptions) : Store :=
  ⟨s.objs.set r o⟩

/-- A full options object viewed as a partial object with every
available field present. -/
def toPartial (o : CORSOptions) : PartialOptions :=
  { origin := some o.origin
    allowedMethods := some o.allowedMethods
    credentials := some o.credentials
    allowedHeaders := o.allowedHeaders
    exposedHeaders := o.exposedHeaders
    maxAge := o.maxAge }

/-- `cors` on a stored configuration object, with the object operations
made explicit: the caller's object at `cfgRef` is read, the spread
allocates a fresh working object, and the origin-callback result is
written into the working object (never into `cfgRef`). -/
def corsHeap (req : Request) (store0 : Store) (cfgRef : Nat) :
    Except String Headers × Store :=
  let options := store0.read cfgRef
  let corsOptions := mergeOptions defaults options
  let alloc1 := store0.alloc (toPartial corsOptions)
  let store1 := alloc1.1
  let workRef := alloc1.2
  match corsOptions.origin with
  | .fn f =>
    match f req.originHeader with
    | .fn _ => (.error "Origin callback result cannot be a function.", store1)
    | .val ov =>
      let store2 := store1.write workRef
        { store1.read workRef with origin := some (.val ov) }
      (.ok (corsResolved req
        (withOrigin (mergeOptions defaults (store2.read workRef)) ov)), store2)
  | .val ov => (.ok (corsResolved req (withOrigin corsOptions ov)), store1)

theorem store_read_alloc_lt (s : Store) (o : PartialOptions) (r : Nat)
    (hr : r < s.objs.length) : (s.alloc o).1.read r = s.read r := by
  simp only [Store.alloc, Store.read]
  exact List.getD_append _ _ _ _ hr

theorem store_read_alloc_new (s : Store) (o : PartialOptions) :
    (s.alloc o).1.read (s.alloc o).2 = o := by
  simp only [Store.alloc, Store.read, List.getD_eq_getElem?_getD]
  rw [List.getElem?_concat_length]
  rfl

theorem store_read_write_ne (s : Store) (r w : Nat) (o : PartialOptions)
    (hrw : w ≠ r) : (s.write w o).read r = s.read r := by
  simp only [Store.write, Store.read, List.getD_eq_getElem?_getD]
  rw [List.getElem?_set_ne hrw]

theorem store_read_write_self (s : Store) (w : Nat) (o : PartialOptions)
    (hw : w < s.objs.length) : (s.write w o).read w = o := by
  simp only [Store.write, Store.read, List.getD_eq_getElem?_getD]
  rw [List.getElem?_set_self hw]
  rfl

theorem orElse_none_eq (x : Option StrOrList) : (x.orElse fun _ => none) = x := by
  cases x <;> rfl

theorem orElse_none_eq_int (x : Option Int) : (x.orElse fun _ => none) = x := by
  cases x <;> rfl

/-- Claim C9: for every request and every (valid) stored configuration
object, the call leaves the caller's configuration object unchanged —
all writes go to the fresh working copy, including the origin-callback
assignment — and the produced result is exactly that of `cors` on the
object's value. -/
theorem claimC9 (req : Request) (store : Store) (cfgRef : Nat)
    (hr : cfgRef < store.objs.length) :
    (corsHeap req store cfgRef).2.read cfgRef = store.read cfgRef ∧
    (corsHeap req store cfgRef).1 = cors req (.opts (store.read cfgRef)) := by
  have hwork : (store.alloc (toPartial (mergeOptions defaults (store.read cfgRef)))).2 ≠ cfgRef := by
    simp only [Store.alloc]
    exact Nat.ne_of_gt hr
  cases horig : (mergeOptions defaults (store.read cfgRef)).origin with
  | val ov =>
    constructor
    · simp only [corsHeap, horig]
      exact store_read_alloc_lt _ _ _ hr
    · simp only [corsHeap, horig, cors, mergedOptions, resolveOrigin]
  | fn f =>
    cases hf : f req.originHeader with
    | fn g =>
      constructor
      · simp only [corsHeap, horig, hf]
        exact store_read_alloc_lt _ _ _ hr
      · simp only [corsHeap, horig, hf, cors, mergedOptions, resolveOrigin]
    | val ov =>
      constructor
      · simp only [corsHeap, horig, hf]
        rw [store_read_write_ne _ _ _ _ hwork]
        exact store_read_alloc_lt _ _ _ hr
      · simp only [corsHeap, horig, hf, cors, mergedOptions, resolveOrigin]
        rw [store_read_alloc_new, store_read_write_self _ _ _ (by simp [Store.alloc])]
        congr 1
        simp only [corsResolved]
        congr 1
        simp only [toPartial, mergeOptions, withOrigin, defaults, Option.getD_some,
          orElse_none_eq, orElse_none_eq_int]

/-- Witness for C9: the frozen-config test of the repository — a GET
request with `origin: "https://custom-origin.com"` stored at reference
0 of a one-object store. -/
theorem claimC9_witness :
    ((corsHeap ⟨"GET", some "https://example.com", none⟩
        ⟨[{ origin := some (.val (.str "https://custom-origin.com")) }]⟩ 0).2.read 0 =
      (Store.mk [{ origin := some (.val (.str "https://custom-origin.com")) }]).read 0) ∧
    (corsHeap ⟨"GET", some "https://example.com", none⟩
        ⟨[{ origin := some (.val (.str "https://custom-origin.com")) }]⟩ 0).1 =
      cors ⟨"GET", some "https://example.com", none⟩
        (.opts ((Store.mk [{ origin := some (.val (.str "https://custom-origin.com")) }]).read 0)) :=
  claimC9 ⟨"GET", some "https://example.com", none⟩
    ⟨[{ origin := some (.val (.str "https://custom-origin.com")) }]⟩ 0 (by decide)

/-! ### Reading a single header off the final collection -/

theorem get_eq_single (h : Headers) (m v : String) (hg : h.getAll m = [v]) :
    h.get m = some v := by
  rw [Headers.get, hg]
  show some (String.intercalate ", " [v]) = some v
  rw [intercalate_singleton]

theorem get_eq_none_of_getAll (h : Headers) (m : String) (hg : h.getAll m = []) :
    h.get m = none := by
  rw [Headers.get, hg]

theorem get_eq_pair (h : Headers) (m v1 v2 : String) (hg : h.getAll m = [v1, v2]) :
    h.get m = some (v1 ++ ", " ++ v2) := by
  rw [Headers.get, hg]
  rfl

theorem has_false_of_getAll (h : Headers) (m : String) (hg : h.getAll m = []) :
    h.has m = false := by
  rw [has_eq_getAll, hg]
  rfl

/-! ### Skipping pipeline stages that write other header names -/

theorem getAll_skip_credentials (h : Headers) (o : ResolvedOptions) (m : String)
    (hm : (toLowerStr "Access-Control-Allow-Credentials" == toLowerStr m) = false) :
    (applyEntry h (optEntry (configureCredentials o))).getAll m = h.getAll m := by
  refine getAll_applyEntry_opt _ _ _ (fun ho hx => ?_)
  rw [configureCredentials_key o ho hx]
  exact hm

theorem getAll_skip_methods (h : Headers) (o : ResolvedOptions) (m : String)
    (hm : (toLowerStr "Access-Control-Allow-Methods" == toLowerStr m) = false) :
    (applyEntry h (optEntry (configureMethods o))).getAll m = h.getAll m := by
  refine getAll_applyEntry_opt _ _ _ (fun ho hx => ?_)
  rw [configureMethods_key o ho hx]
  exact hm

theorem getAll_skip_maxAge (h : Headers) (o : ResolvedOptions) (m : String)
    (hm : (toLowerStr "Access-Control-Max-Age" == toLowerStr m) = false) :
    (applyEntry h (optEntry (configureMaxAge o))).getAll m = h.getAll m := by
  refine getAll_applyEntry_opt _ _ _ (fun ho hx => ?_)
  rw [configureMaxAge_key o ho hx]
  exact hm

theorem getAll_skip_exposed (h : Headers) (o : ResolvedOptions) (m : String)
    (hm : (toLowerStr "Access-Control-Expose-Headers" == toLowerStr m) = false) :
    (applyEntry h (optEntry (configureExposedHeaders o))).getAll m = h.getAll m := by
  refine getAll_applyEntry_opt _ _ _ (fun ho hx => ?_)
  rw [configureExposedHeaders_key o ho hx]
  exact hm

theorem getAll_skip_origin (h : Headers) (o : ResolvedOptions) (req : Request) (m : String)
    (h1 : (toLowerStr "Access-Control-Allow-Origin" == toLowerStr m) = false)
    (h2 : (toLowerStr "Vary" == toLowerStr m) = false) :
    ((configureOrigin o req).foldl applyHeader h).getAll m = h.getAll m := by
  refine getAll_foldl_ne _ _ _ (fun ho hmem => ?_)
  rcases configureOrigin_keys o req ho hmem with hk | hk <;> rw [hk]
  · exact h1
  · exact h2

theorem getAll_skip_allowedHeaders (h : Headers) (o : ResolvedOptions) (req : Request)
    (m : String)
    (h1 : (toLowerStr "Vary" == toLowerStr m) = false)
    (h2 : (toLowerStr "Access-Control-Allow-Headers" == toLowerStr m) = false) :
    ((configureAllowedHeaders o req).foldl applyHeader h).getAll m = h.getAll m := by
  refine getAll_foldl_ne _ _ _ (fun ho hmem => ?_)
  rcases configureAllowedHeaders_keys o req ho hmem with hk | hk <;> rw [hk]
  · exact h1
  · exact h2

/-! ### The two branch skeletons of the header pipeline -/

theorem corsResolved_preflight (req : Request) (o : ResolvedOptions)
    (hgate : truthyOrigin o.origin = true)
    (hm : (toUpperStr req.method == "OPTIONS") = true) :
    corsResolved req o =
      applyHeader
        (applyEntry
          (applyEntry
            ((configureAllowedHeaders o req).foldl applyHeader
              (applyEntry
                (applyEntry
                  ((configureOrigin o req).foldl applyHeader ⟨[]⟩)
                  (optEntry (configureCredentials o)))
                (optEntry (configureMethods o))))
            (optEntry (configureMaxAge o)))
          (optEntry (configureExposedHeaders o)))
        ⟨"Content-Length", .str "0"⟩ := by
  simp only [corsResolved, buildHeadersArr, hgate, hm, if_true, applyHeaders,
    List.foldl_cons, List.foldl_nil, applyEntry]

theorem corsResolved_actual (req : Request) (o : ResolvedOptions)
    (hgate : truthyOrigin o.origin = true)
    (hm : (toUpperStr req.method == "OPTIONS") = false) :
    corsResolved req o =
      applyEntry
        (applyEntry
          ((configureOrigin o req).foldl applyHeader ⟨[]⟩)
          (optEntry (configureCredentials o)))
        (optEntry (configureExposedHeaders o)) := by
  simp only [corsResolved, buildHeadersArr, hgate, hm, Bool.false_eq_true, if_true,
    if_false, applyHeaders, List.foldl_cons, List.foldl_nil, applyEntry]

/-! ### Positive pipeline steps -/

theorem getAll_methods_step (h : Headers) (o : ResolvedOptions) :
    (applyEntry h (optEntry (configureMethods o))).getAll "Access-Control-Allow-Methods" =
      (if joinStrOrList o.allowedMethods == "" then
        h.getAll "Access-Control-Allow-Methods"
      else [joinStrOrList o.allowedMethods]) := by
  by_cases hc : (joinStrOrList o.allowedMethods == "") = true
  · have hb : (joinStrOrList o.allowedMethods != "") = false := by
      simp only [bne, hc, Bool.not_true]
    simp [configureMethods, hb, hc, optEntry, applyEntry]
  · have hc2 : (joinStrOrList o.allowedMethods == "") = false := by simpa using hc
    have hb : (joinStrOrList o.allowedMethods != "") = true := by
      simp only [bne, hc2, Bool.not_false]
    have hstep : configureMethods o =
        some ⟨"Access-Control-Allow-Methods", .str (joinStrOrList o.allowedMethods)⟩ := by
      simp [configureMethods, hb]
    rw [hstep]
    show (applyHeader h
      ⟨"Access-Control-Allow-Methods", .str (joinStrOrList o.allowedMethods)⟩).getAll
        "Access-Control-Allow-Methods" = _
    rw [applyHeader_set h "Access-Control-Allow-Methods"
      (.str (joinStrOrList o.allowedMethods)) (by decide) hb]
    rw [getAll_set_self _ _ _ _ rfl]
    simp [hc2, HVal.toStr]

theorem getAll_maxAge_step (h : Headers) (o : ResolvedOptions) :
    (applyEntry h (optEntry (configureMaxAge o))).getAll "Access-Control-Max-Age" =
      (match o.maxAge with
       | none => h.getAll "Access-Control-Max-Age"
       | some n => [toString n]) := by
  cases hma : o.maxAge with
  | none => simp [configureMaxAge, hma, optEntry, applyEntry]
  | some n =>
    have hb : (toString n != "") = true := by
      simp only [bne_iff_ne, ne_eq]
      exact int_toString_ne_empty n
    have hstep : configureMaxAge o = some ⟨"Access-Control-Max-Age", .str (toString n)⟩ := by
      simp [configureMaxAge, hma, hb]
    rw [hstep]
    show (applyHeader h ⟨"Access-Control-Max-Age", .str (toString n)⟩).getAll
      "Access-Control-Max-Age" = [toString n]
    rw [applyHeader_set h "Access-Control-Max-Age" (.str (toString n)) (by decide) hb]
    exact getAll_set_self _ _ _ _ rfl

theorem configureAllowedHeaders_cases (o : ResolvedOptions) (req : Request) :
    configureAllowedHeaders o req =
      (if optTruthy (o.allowedHeaders.map joinStrOrList) then
        [⟨"Access-Control-Allow-Headers", .str ((o.allowedHeaders.map joinStrOrList).getD "")⟩]
      else if optTruthy req.acrhHeader then
        [⟨"Vary", .str "Access-Control-Request-Headers"⟩,
         ⟨"Access-Control-Allow-Headers", .str (req.acrhHeader.getD "")⟩]
      else []) := by
  by_cases h1 : optTruthy (o.allowedHeaders.map joinStrOrList) = true
  · simp [configureAllowedHeaders, h1]
  · have h1f : optTruthy (o.allowedHeaders.map joinStrOrList) = false := by simpa using h1
    by_cases h2 : optTruthy req.acrhHeader = true
    · simp [configureAllowedHeaders, h1f, h2]
    · have h2f : optTruthy req.acrhHeader = false := by simpa using h2
      simp [configureAllowedHeaders, h1f, h2f]

theorem configureOrigin_wildcard (o : ResolvedOptions) (req : Request)
    (h : (!truthyOrigin o.origin || isStarLit o.origin) = true) :
    configureOrigin o req = [⟨"Access-Control-Allow-Origin", .str "*"⟩] := by
  simp [configureOrigin, h]

theorem configureOrigin_fixed (o : ResolvedOptions) (req : Request) (s : String)
    (hcond : (!truthyOrigin o.origin || isStarLit o.origin) = false)
    (ho : o.origin = .str s) :
    configureOrigin o req =
      [⟨"Access-Control-Allow-Origin", .str s⟩, ⟨"Vary", .str "Origin"⟩] := by
  have hcond2 := hcond
  rw [ho] at hcond2
  simp [configureOrigin, ho, hcond2]

theorem configureOrigin_reflect (o : ResolvedOptions) (req : Request)
    (hcond : (!truthyOrigin o.origin || isStarLit o.origin) = false)
    (hshape : ∀ s, o.origin ≠ .str s) :
    configureOrigin o req =
      [⟨"Access-Control-Allow-Origin",
        if reqOriginAllowed req.originHeader o.origin then hvalOfOptString req.originHeader
        else .bool false⟩,
       ⟨"Vary", .str "Origin"⟩] := by
  cases horig : o.origin with
  | str s => exact absurd horig (hshape s)
  | bool b =>
    rw [horig] at hcond
    simp [configureOrigin, hcond, horig]
  | regex t =>
    rw [horig] at hcond
    simp [configureOrigin, hcond, horig]
  | list items =>
    rw [horig] at hcond
    simp [configureOrigin, hcond, horig]

theorem withOrigin_origin (o : CORSOptions) (ov : CORSOrigin) :
    (withOrigin o ov).origin = ov := rfl

theorem withOrigin_allowedMethods (o : CORSOptions) (ov : CORSOrigin) :
    (withOrigin o ov).allowedMethods = o.allowedMethods := rfl

theorem withOrigin_credentials (o : CORSOptions) (ov : CORSOrigin) :
    (withOrigin o ov).credentials = o.credentials := rfl

theorem withOrigin_allowedHeaders (o : CORSOptions) (ov : CORSOrigin) :
    (withOrigin o ov).allowedHeaders = o.allowedHeaders := rfl

theorem withOrigin_exposedHeaders (o : CORSOptions) (ov : CORSOrigin) :
    (withOrigin o ov).exposedHeaders = o.exposedHeaders := rfl

theorem withOrigin_maxAge (o : CORSOptions) (ov : CORSOrigin) :
    (withOrigin o ov).maxAge = o.maxAge := rfl

/-! ### Claim C8 -/

/-- Claim C8: with an enabled origin rule, every request whose method
upper-cases to `OPTIONS` gets `Content-Length: 0`,
`Access-Control-Allow-Methods` equal to the configured methods (arrays
joined with commas, emitted only when non-empty), and
`Access-Control-Max-Age` equal to the decimal string of `maxAge`
exactly when `maxAge` is a number (including `0`); for every other
method none of `Access-Control-Allow-Methods`,
`Access-Control-Allow-Headers`, `Access-Control-Max-Age`, or
`Content-Length` appears. -/
theorem claimC8 (req : Request) (cfg : CorsConfig) (rule : CORSOrigin)
    (hres : resolveOrigin (mergedOptions req cfg).origin req.originHeader = .ok rule) :
    (truthyOrigin rule = true → toUpperStr req.method = "OPTIONS" →
      ∃ hs, cors req cfg = .ok hs ∧
        hs.get "Content-Length" = some "0" ∧
        hs.get "Access-Control-Allow-Methods" =
          (if joinStrOrList (mergedOptions req cfg).allowedMethods == "" then none
           else some (joinStrOrList (mergedOptions req cfg).allowedMethods)) ∧
        hs.get "Access-Control-Max-Age" =
          (mergedOptions req cfg).maxAge.map (fun n => toString n)) ∧
    (toUpperStr req.method ≠ "OPTIONS" →
      ∀ hs, cors req cfg = .ok hs →
        hs.has "Access-Control-Allow-Methods" = false ∧
        hs.has "Access-Control-Allow-Headers" = false ∧
        hs.has "Access-Control-Max-Age" = false ∧
        hs.has "Content-Length" = false) := by
  constructor
  · intro hgate hm
    have hmb : (toUpperStr req.method == "OPTIONS") = true := by
      simp [hm]
    refine ⟨_, cors_ok req cfg rule hres, ?_, ?_, ?_⟩
    · rw [corsResolved_preflight req _ hgate hmb]
      rw [applyHeader_set _ _ _ (by decide) (by decide)]
      exact get_set_self _ _ _ _ rfl
    · have hACAM : (corsResolved req (withOrigin (mergedOptions req cfg) rule)).getAll
          "Access-Control-Allow-Methods" =
          (if joinStrOrList (mergedOptions req cfg).allowedMethods == "" then []
           else [joinStrOrList (mergedOptions req cfg).allowedMethods]) := by
        rw [corsResolved_preflight req _ hgate hmb]
        rw [getAll_applyHeader_ne _ _ _ (by decide)]
        rw [getAll_skip_exposed _ _ _ (by decide)]
        rw [getAll_skip_maxAge _ _ _ (by decide)]
        rw [getAll_skip_allowedHeaders _ _ _ _ (by decide) (by decide)]
        rw [getAll_methods_step]
        rw [getAll_skip_credentials _ _ _ (by decide)]
        rw [getAll_skip_origin _ _ _ _ (by decide) (by decide)]
        rw [getAll_nil]
        rw [withOrigin_allowedMethods]
      by_cases hcm : (joinStrOrList (mergedOptions req cfg).allowedMethods == "") = true
      · simp only [hcm, if_true] at hACAM ⊢
        exact get_eq_none_of_getAll _ _ hACAM
      · have hcm2 : (joinStrOrList (mergedOptions req cfg).allowedMethods == "") = false := by
          simpa using hcm
        simp only [hcm2, Bool.false_eq_true, if_false] at hACAM ⊢
        exact get_eq_single _ _ _ hACAM
    · have hMA : (corsResolved req (withOrigin (mergedOptions req cfg) rule)).getAll
          "Access-Control-Max-Age" =
          (match (mergedOptions req cfg).maxAge with
           | none => []
           | some n => [toString n]) := by
        rw [corsResolved_preflight req _ hgate hmb]
        rw [getAll_applyHeader_ne _ _ _ (by decide)]
        rw [getAll_skip_exposed _ _ _ (by decide)]
        rw [getAll_maxAge_step]
        rw [withOrigin_maxAge]
        cases hma : (mergedOptions req cfg).maxAge with
        | none =>
          dsimp only
          rw [getAll_skip_allowedHeaders _ _ _ _ (by decide) (by decide)]
          rw [getAll_skip_methods _ _ _ (by decide)]
          rw [getAll_skip_credentials _ _ _ (by decide)]
          rw [getAll_skip_origin _ _ _ _ (by decide) (by decide)]
          rw [getAll_nil]
        | some n => rfl
      cases hma : (mergedOptions req cfg).maxAge with
      | none =>
        rw [hma] at hMA
        rw [get_eq_none_of_getAll _ _ hMA]
        rfl
      | some n =>
        rw [hma] at hMA
        rw [get_eq_single _ _ _ hMA]
        rfl
  · intro hm hs hcors
    rw [cors_ok req cfg rule hres] at hcors
    injection hcors with hval
    subst hval
    by_cases hgate : truthyOrigin rule = true
    · have hmb : (toUpperStr req.method == "OPTIONS") = false :=
        beq_eq_false_iff_ne.mpr hm
      rw [corsResolved_actual req _ hgate hmb]
      refine ⟨?_, ?_, ?_, ?_⟩ <;>
        (refine has_false_of_getAll _ _ ?_
         rw [getAll_skip_exposed _ _ _ (by decide)]
         rw [getAll_skip_credentials _ _ _ (by decide)]
         rw [getAll_skip_origin _ _ _ _ (by decide) (by decide)]
         rfl)
    · have hgf : truthyOrigin rule = false := by simpa using hgate
      have hempty : corsResolved req (withOrigin (mergedOptions req cfg) rule) = ⟨[]⟩ := by
        simp [corsResolved, buildHeadersArr, withOrigin_origin, hgf, applyHeaders]
      rw [hempty]
      exact ⟨rfl, rfl, rfl, rfl⟩

/-- Witness for C8: Scenario B (OPTIONS, default config) and Scenario A
(GET, default config). -/
theorem claimC8_witness :
    (∃ hs, cors ⟨"OPTIONS", some "https://example.com", some "X-Header-1,X-Header-2"⟩
        (.opts {}) = .ok hs ∧
      hs.get "Content-Length" = some "0" ∧
      hs.get "Access-Control-Allow-Methods" =
        (if joinStrOrList (mergedOptions
            ⟨"OPTIONS", some "https://example.com", some "X-Header-1,X-Header-2"⟩
            (.opts {})).allowedMethods == "" then none
         else some (joinStrOrList (mergedOptions
            ⟨"OPTIONS", some "https://example.com", some "X-Header-1,X-Header-2"⟩
            (.opts {})).allowedMethods)) ∧
      hs.get "Access-Control-Max-Age" =
        (mergedOptions ⟨"OPTIONS", some "https://example.com", some "X-Header-1,X-Header-2"⟩
          (.opts {})).maxAge.map (fun n => toString n)) ∧
    ((corsHeadersD ⟨"GET", some "https://example.com", none⟩ (.opts {})).has
        "Access-Control-Allow-Methods" = false ∧
      (corsHeadersD ⟨"GET", some "https://example.com", none⟩ (.opts {})).has
        "Access-Control-Allow-Headers" = false ∧
      (corsHeadersD ⟨"GET", some "https://example.com", none⟩ (.opts {})).has
        "Access-Control-Max-Age" = false ∧
      (corsHeadersD ⟨"GET", some "https://example.com", none⟩ (.opts {})).has
        "Content-Length" = false) :=
  ⟨(claimC8 ⟨"OPTIONS", some "https://example.com", some "X-Header-1,X-Header-2"⟩
      (.opts {}) (.str "*") rfl).1 rfl rfl,
   (claimC8 ⟨"GET", some "https://example.com", none⟩
      (.opts {}) (.str "*") rfl).2 (by decide)
     (corsHeadersD ⟨"GET", some "https://example.com", none⟩ (.opts {})) rfl⟩

/-! ### The origin block's contribution to the final headers -/

theorem reqOriginAllowed_some (ro : Option String) (rule : CORSOrigin)
    (h : reqOriginAllowed ro rule = true) :
    ∃ s, ro = some s ∧ (s == "") = false ∧ isOriginAllowed s rule = true := by
  cases ro with
  | none => cases h
  | some s =>
    refine ⟨s, rfl, ?_, ?_⟩ <;> by_cases hs : (s == "") = true
    · rw [reqOriginAllowed, hs, if_pos rfl] at h
      cases h
    · simpa using hs
    · rw [reqOriginAllowed, hs, if_pos rfl] at h
      cases h
    · have hs2 : (s == "") = false := by simpa using hs
      rw [reqOriginAllowed, hs2] at h
      simpa using h

theorem getAll_vary_origin_wildcard (h : Headers) (o : ResolvedOptions) (req : Request)
    (hc : (!truthyOrigin o.origin || isStarLit o.origin) = true) :
    ((configureOrigin o req).foldl applyHeader h).getAll "Vary" = h.getAll "Vary" := by
  rw [configureOrigin_wildcard o req hc]
  simp only [List.foldl_cons, List.foldl_nil]
  exact getAll_applyHeader_ne _ _ _ (by decide)

theorem getAll_vary_origin_nonwildcard (h : Headers) (o : ResolvedOptions) (req : Request)
    (hc : (!truthyOrigin o.origin || isStarLit o.origin) = false) :
    ((configureOrigin o req).foldl applyHeader h).getAll "Vary" =
      h.getAll "Vary" ++ ["Origin"] := by
  by_cases hstr : ∃ s, o.origin = CORSOrigin.str s
  · obtain ⟨s, hs⟩ := hstr
    rw [configureOrigin_fixed o req s hc hs]
    simp only [List.foldl_cons, List.foldl_nil]
    rw [applyHeader_vary_append _ _ (by decide)]
    rw [getAll_append_self _ _ _ _ rfl]
    rw [getAll_applyHeader_ne _ _ _ (by rfl)]
    rfl
  · have hshape : ∀ s, o.origin ≠ CORSOrigin.str s := by
      intro s hcontra
      exact hstr ⟨s, hcontra⟩
    rw [configureOrigin_reflect o req hc hshape]
    simp only [List.foldl_cons, List.foldl_nil]
    rw [applyHeader_vary_append _ _ (by decide)]
    rw [getAll_append_self _ _ _ _ rfl]
    rw [getAll_applyHeader_ne _ _ _ (by rfl)]
    rfl

theorem getAll_acao_origin_wildcard (h : Headers) (o : ResolvedOptions) (req : Request)
    (hc : (!truthyOrigin o.origin || isStarLit o.origin) = true) :
    ((configureOrigin o req).foldl applyHeader h).getAll "Access-Control-Allow-Origin" =
      ["*"] := by
  rw [configureOrigin_wildcard o req hc]
  simp only [List.foldl_cons, List.foldl_nil]
  rw [applyHeader_set _ _ _ (by decide) (by decide)]
  exact getAll_set_self _ _ _ _ rfl

theorem getAll_acao_origin_fixed (h : Headers) (o : ResolvedOptions) (req : Request)
    (s : String)
    (hc : (!truthyOrigin o.origin || isStarLit o.origin) = false)
    (ho : o.origin = .str s) :
    ((configureOrigin o req).foldl applyHeader h).getAll "Access-Control-Allow-Origin" =
      [s] := by
  have hc2 := hc
  rw [ho] at hc2
  have hs : (s != "") = true := by
    rcases Bool.or_eq_false_iff.mp hc2 with ⟨h1, _⟩
    simpa [truthyOrigin] using h1
  rw [configureOrigin_fixed o req s hc ho]
  simp only [List.foldl_cons, List.foldl_nil]
  rw [getAll_applyHeader_ne _ _ _ (by decide)]
  rw [applyHeader_set h "Access-Control-Allow-Origin" (.str s) (by decide) hs]
  exact getAll_set_self _ _ _ _ rfl

theorem getAll_acao_origin_reflect_allowed (h : Headers) (o : ResolvedOptions)
    (req : Request) (s : String)
    (hc : (!truthyOrigin o.origin || isStarLit o.origin) = false)
    (hshape : ∀ t, o.origin ≠ CORSOrigin.str t)
    (hro : req.originHeader = some s) (hs : (s == "") = false)
    (hall : isOriginAllowed s o.origin = true) :
    ((configureOrigin o req).foldl applyHeader h).getAll "Access-Control-Allow-Origin" =
      [s] := by
  have hra : reqOriginAllowed req.originHeader o.origin = true := by
    rw [hro, reqOriginAllowed, hs]
    simpa using hall
  rw [hro] at hra
  rw [configureOrigin_reflect o req hc hshape]
  simp only [List.foldl_cons, List.foldl_nil, hro, hra, if_true, hvalOfOptString]
  rw [getAll_applyHeader_ne _ _ _ (by decide)]
  rw [applyHeader_set h "Access-Control-Allow-Origin" (.str s) (by decide)
    (by simp [HVal.truthy, bne, hs])]
  exact getAll_set_self _ _ _ _ rfl

theorem getAll_acao_origin_reflect_blocked (h : Headers) (o : ResolvedOptions)
    (req : Request)
    (hc : (!truthyOrigin o.origin || isStarLit o.origin) = false)
    (hshape : ∀ t, o.origin ≠ CORSOrigin.str t)
    (hra : reqOriginAllowed req.originHeader o.origin = false) :
    ((configureOrigin o req).foldl applyHeader h).getAll "Access-Control-Allow-Origin" =
      h.getAll "Access-Control-Allow-Origin" := by
  rw [configureOrigin_reflect o req hc hshape]
  simp only [List.foldl_cons, List.foldl_nil, hra, Bool.false_eq_true, if_false]
  rw [getAll_applyHeader_ne _ _ _ (by decide)]
  rw [applyHeader_falsy h ⟨"Access-Control-Allow-Origin", .bool false⟩ rfl]

/-! ### The allowed-headers block's contribution to the final headers -/

theorem getAll_acah_ah_config (h : Headers) (o : ResolvedOptions) (req : Request)
    (s : String) (hj : o.allowedHeaders.map joinStrOrList = some s)
    (hs : (s == "") = false) :
    ((configureAllowedHeaders o req).foldl applyHeader h).getAll
      "Access-Control-Allow-Headers" = [s] := by
  have hsome : optTruthy (some s) = true := by
    simp [optTruthy, bne, hs]
  rw [configureAllowedHeaders_cases]
  simp only [hj, hsome, if_true, Option.getD_some, List.foldl_cons, List.foldl_nil]
  rw [applyHeader_set h "Access-Control-Allow-Headers" (.str s) (by decide)
    (by simp [HVal.truthy, bne, hs])]
  exact getAll_set_self _ _ _ _ rfl

theorem getAll_vary_ah_config (h : Headers) (o : ResolvedOptions) (req : Request)
    (hjt : optTruthy (o.allowedHeaders.map joinStrOrList) = true) :
    ((configureAllowedHeaders o req).foldl applyHeader h).getAll "Vary" =
      h.getAll "Vary" := by
  rw [configureAllowedHeaders_cases]
  simp only [hjt, if_true, List.foldl_cons, List.foldl_nil]
  exact getAll_applyHeader_ne _ _ _ (by rfl)

theorem getAll_acah_ah_reflect (h : Headers) (o : ResolvedOptions) (req : Request)
    (v : String)
    (hjf : optTruthy (o.allowedHeaders.map joinStrOrList) = false)
    (ha : req.acrhHeader = some v) (hv : (v == "") = false) :
    ((configureAllowedHeaders o req).foldl applyHeader h).getAll
      "Access-Control-Allow-Headers" = [v] := by
  have hsome : optTruthy (some v) = true := by
    simp [optTruthy, bne, hv]
  rw [configureAllowedHeaders_cases]
  simp only [hjf, Bool.false_eq_true, if_false, ha, hsome, if_true, Option.getD_some,
    List.foldl_cons, List.foldl_nil]
  rw [applyHeader_set _ "Access-Control-Allow-Headers" (.str v) (by decide)
    (by simp [HVal.truthy, bne, hv])]
  exact getAll_set_self _ _ _ _ rfl

theorem getAll_vary_ah_reflect (h : Headers) (o : ResolvedOptions) (req : Request)
    (v : String)
    (hjf : optTruthy (o.allowedHeaders.map joinStrOrList) = false)
    (ha : req.acrhHeader = some v) (hv : (v == "") = false) :
    ((configureAllowedHeaders o req).foldl applyHeader h).getAll "Vary" =
      h.getAll "Vary" ++ ["Access-Control-Request-Headers"] := by
  have hsome : optTruthy (some v) = true := by
    simp [optTruthy, bne, hv]
  rw [configureAllowedHeaders_cases]
  simp only [hjf, Bool.false_eq_true, if_false, ha, hsome, if_true, Option.getD_some,
    List.foldl_cons, List.foldl_nil]
  rw [getAll_applyHeader_ne _ _ _ (by rfl)]
  rw [applyHeader_vary_append _ _ (by decide)]
  rw [getAll_append_self _ _ _ _ rfl]
  rfl

theorem configureAllowedHeaders_empty (o : ResolvedOptions) (req : Request)
    (hjf : optTruthy (o.allowedHeaders.map joinStrOrList) = false)
    (haf : optTruthy req.acrhHeader = false) :
    configureAllowedHeaders o req = [] := by
  rw [configureAllowedHeaders_cases]
  simp [hjf, haf]

theorem getAll_peel_tail (req : Request) (o : ResolvedOptions) (m : String)
    (hgate : truthyOrigin o.origin = true)
    (hmb : (toUpperStr req.method == "OPTIONS") = true)
    (h1 : (toLowerStr "Content-Length" == toLowerStr m) = false)
    (h2 : (toLowerStr "Access-Control-Expose-Headers" == toLowerStr m) = false)
    (h3 : (toLowerStr "Access-Control-Max-Age" == toLowerStr m) = false) :
    (corsResolved req o).getAll m =
      ((configureAllowedHeaders o req).foldl applyHeader
        (applyEntry
          (applyEntry
            ((configureOrigin o req).foldl applyHeader ⟨[]⟩)
            (optEntry (configureCredentials o)))
          (optEntry (configureMethods o)))).getAll m := by
  rw [corsResolved_preflight req _ hgate hmb]
  rw [getAll_applyHeader_ne _ _ _ h1]
  rw [getAll_skip_exposed _ _ _ h2]
  rw [getAll_skip_maxAge _ _ _ h3]

theorem getAll_peel_inner (o : ResolvedOptions) (req : Request) (m : String)
    (h4 : (toLowerStr "Access-Control-Allow-Methods" == toLowerStr m) = false)
    (h5 : (toLowerStr "Access-Control-Allow-Credentials" == toLowerStr m) = false) :
    (applyEntry
      (applyEntry
        ((configureOrigin o req).foldl applyHeader ⟨[]⟩)
        (optEntry (configureCredentials o)))
      (optEntry (configureMethods o))).getAll m =
      ((configureOrigin o req).foldl applyHeader ⟨[]⟩).getAll m := by
  rw [getAll_skip_methods _ _ _ h4, getAll_skip_credentials _ _ _ h5]

theorem vary_base_cases (o : ResolvedOptions) (req : Request) :
    ((configureOrigin o req).foldl applyHeader (Headers.mk [])).getAll "Vary" = [] ∨
    ((configureOrigin o req).foldl applyHeader (Headers.mk [])).getAll "Vary" = ["Origin"] := by
  by_cases hw : (!truthyOrigin o.origin || isStarLit o.origin) = true
  · left
    rw [getAll_vary_origin_wildcard _ _ _ hw, getAll_nil]
  · right
    have hw2 : (!truthyOrigin o.origin || isStarLit o.origin) = false := by simpa using hw
    rw [getAll_vary_origin_nonwildcard _ _ _ hw2, getAll_nil]
    rfl

/-! ### Claim C7 (amended) -/

/-- Claim C7, amended for the empty-join fallback: for an OPTIONS
request with an enabled origin rule, a configured `allowedHeaders`
joining to a non-empty string is emitted as
`Access-Control-Allow-Headers` with no `Access-Control-Request-Headers`
entry in `Vary`; when `allowedHeaders` is unset or joins to the empty
string, a non-empty request `Access-Control-Request-Headers` header is
reflected together with `Vary: Access-Control-Request-Headers`, and a
missing or empty one produces neither. -/
theorem claimC7 (req : Request) (cfg : CorsConfig) (rule : CORSOrigin)
    (hres : resolveOrigin (mergedOptions req cfg).origin req.originHeader = .ok rule)
    (hgate : truthyOrigin rule = true)
    (hm : toUpperStr req.method = "OPTIONS") :
    (∀ s, (mergedOptions req cfg).allowedHeaders.map joinStrOrList = some s → s ≠ "" →
      ∃ hs, cors req cfg = .ok hs ∧
        hs.get "Access-Control-Allow-Headers" = some s ∧
        "Access-Control-Request-Headers" ∉ hs.getAll "Vary") ∧
    (optTruthy ((mergedOptions req cfg).allowedHeaders.map joinStrOrList) = false →
      (∀ v, req.acrhHeader = some v → v ≠ "" →
        ∃ hs, cors req cfg = .ok hs ∧
          hs.get "Access-Control-Allow-Headers" = some v ∧
          "Access-Control-Request-Headers" ∈ hs.getAll "Vary") ∧
      (optTruthy req.acrhHeader = false →
        ∃ hs, cors req cfg = .ok hs ∧
          hs.get "Access-Control-Allow-Headers" = none ∧
          "Access-Control-Request-Headers" ∉ hs.getAll "Vary")) := by
  have hmb : (toUpperStr req.method == "OPTIONS") = true := by simp [hm]
  constructor
  · intro s hj hs
    have hs2 : (s == "") = false := by simpa using hs
    refine ⟨_, cors_ok req cfg rule hres, ?_, ?_⟩
    · refine get_eq_single _ _ _ ?_
      rw [getAll_peel_tail req _ _ hgate hmb (by decide) (by decide) (by decide)]
      exact getAll_acah_ah_config _ _ _ s hj hs2
    · have hjt : optTruthy
          ((withOrigin (mergedOptions req cfg) rule).allowedHeaders.map joinStrOrList) =
          true := by
        rw [withOrigin_allowedHeaders, hj]
        simp [optTruthy, bne, hs2]
      have hV := vary_base_cases (withOrigin (mergedOptions req cfg) rule) req
      have hVall : (corsResolved req (withOrigin (mergedOptions req cfg) rule)).getAll
          "Vary" = [] ∨
          (corsResolved req (withOrigin (mergedOptions req cfg) rule)).getAll
          "Vary" = ["Origin"] := by
        rw [getAll_peel_tail req _ _ hgate hmb (by decide) (by decide) (by decide)]
        rw [getAll_vary_ah_config _ _ _ hjt]
        rw [getAll_peel_inner _ _ _ (by decide) (by decide)]
        exact hV
      rcases hVall with hV2 | hV2 <;> rw [hV2] <;> decide
  · intro hjf
    constructor
    · intro v ha hv
      have hv2 : (v == "") = false := by simpa using hv
      refine ⟨_, cors_ok req cfg rule hres, ?_, ?_⟩
      · refine get_eq_single _ _ _ ?_
        rw [getAll_peel_tail req _ _ hgate hmb (by decide) (by decide) (by decide)]
        exact getAll_acah_ah_reflect _ _ _ v hjf ha hv2
      · have hV := vary_base_cases (withOrigin (mergedOptions req cfg) rule) req
        have hVall : "Access-Control-Request-Headers" ∈
            (corsResolved req (withOrigin (mergedOptions req cfg) rule)).getAll "Vary" := by
          rw [getAll_peel_tail req _ _ hgate hmb (by decide) (by decide) (by decide)]
          rw [getAll_vary_ah_reflect _ _ _ v hjf ha hv2]
          rw [getAll_peel_inner _ _ _ (by decide) (by decide)]
          rcases hV with hV2 | hV2 <;> rw [hV2] <;> decide
        exact hVall
    · intro haf
      have hempty := configureAllowedHeaders_empty
        (withOrigin (mergedOptions req cfg) rule) req hjf haf
      refine ⟨_, cors_ok req cfg rule hres, ?_, ?_⟩
      · refine get_eq_none_of_getAll _ _ ?_
        rw [getAll_peel_tail req _ _ hgate hmb (by decide) (by decide) (by decide)]
        rw [hempty, List.foldl_nil]
        rw [getAll_peel_inner _ _ _ (by decide) (by decide)]
        rw [getAll_skip_origin _ _ _ _ (by decide) (by decide)]
        rfl
      · have hV := vary_base_cases (withOrigin (mergedOptions req cfg) rule) req
        have hVall : (corsResolved req (withOrigin (mergedOptions req cfg) rule)).getAll
            "Vary" = [] ∨
            (corsResolved req (withOrigin (mergedOptions req cfg) rule)).getAll
            "Vary" = ["Origin"] := by
          rw [getAll_peel_tail req _ _ hgate hmb (by decide) (by decide) (by decide)]
          rw [hempty, List.foldl_nil]
          rw [getAll_peel_inner _ _ _ (by decide) (by decide)]
          exact hV
        rcases hVall with hV2 | hV2 <;> rw [hV2] <;> decide

/-- Witness for C7: a configured `allowedHeaders: "header1"`, the
default reflection case with `Access-Control-Request-Headers` present,
and the default case with it absent. -/
theorem claimC7_witness :
    (∃ hs, cors ⟨"OPTIONS", some "https://example.com", some "X-H"⟩
        (.opts { allowedHeaders := some (.str "header1") }) = .ok hs ∧
      hs.get "Access-Control-Allow-Headers" = some "header1" ∧
      "Access-Control-Request-Headers" ∉ hs.getAll "Vary") ∧
    (∃ hs, cors ⟨"OPTIONS", some "https://example.com", some "X-Header-1,X-Header-2"⟩
        (.opts {}) = .ok hs ∧
      hs.get "Access-Control-Allow-Headers" = some "X-Header-1,X-Header-2" ∧
      "Access-Control-Request-Headers" ∈ hs.getAll "Vary") ∧
    (∃ hs, cors ⟨"OPTIONS", some "https://example.com", none⟩ (.opts {}) = .ok hs ∧
      hs.get "Access-Control-Allow-Headers" = none ∧
      "Access-Control-Request-Headers" ∉ hs.getAll "Vary") :=
  ⟨(claimC7 ⟨"OPTIONS", some "https://example.com", some "X-H"⟩
      (.opts { allowedHeaders := some (.str "header1") }) (.str "*")
      rfl rfl rfl).1 "header1" rfl (by decide),
   ((claimC7 ⟨"OPTIONS", some "https://example.com", some "X-Header-1,X-Header-2"⟩
      (.opts {}) (.str "*") rfl rfl rfl).2 rfl).1 "X-Header-1,X-Header-2" rfl (by decide),
   ((claimC7 ⟨"OPTIONS", some "https://example.com", none⟩
      (.opts {}) (.str "*") rfl rfl rfl).2 rfl).2 rfl⟩

/-! ### Claim C6 (amended) -/

theorem go_append_last (s x : String) (l : List String) : ∀ acc : String,
    String.intercalate.go acc s (l ++ [x]) = String.intercalate.go acc s l ++ s ++ x := by
  induction l with
  | nil => intro acc; rfl
  | cons a as ih => intro acc; exact ih (acc ++ s ++ a)

theorem intercalate_append_last (s x : String) (l : List String) :
    String.intercalate s (l ++ [x]) =
      (match l with
       | [] => x
       | _ => String.intercalate s l ++ s ++ x) := by
  cases l with
  | nil => rfl
  | cons a as => exact go_append_last s x as a

theorem get_append_vary (h : Headers) (x : String) :
    (h.append "Vary" x).get "Vary" =
      (match h.get "Vary" with
       | none => some x
       | some old => some (old ++ ", " ++ x)) := by
  have h1 : (h.append "Vary" x).getAll "Vary" = h.getAll "Vary" ++ [x] :=
    getAll_append_self _ _ _ _ rfl
  cases hl : h.getAll "Vary" with
  | nil =>
    rw [hl] at h1
    rw [get_eq_single _ _ _ h1, get_eq_none_of_getAll _ _ hl]
  | cons a as =>
    rw [hl] at h1
    simp only [Headers.get, h1, hl]
    show some (String.intercalate ", " ((a :: as) ++ [x])) =
      some (String.intercalate ", " (a :: as) ++ ", " ++ x)
    rw [intercalate_append_last]

/-- Claim C6, amended for an empty request-header value: in
`applyHeaders`, a truthy `Vary` directive appends to the collection
(`get` joins the accumulated values with a comma and a space) while
every other truthy directive replaces its previous value; consequently
an OPTIONS request carrying an `Origin` header and a non-empty
`Access-Control-Request-Headers` header, under an enabled non-wildcard
origin rule with `allowedHeaders` unset, yields exactly
`Vary: Origin, Access-Control-Request-Headers`. -/
theorem claimC6 :
    (∀ (h : Headers) (v : HVal), v.truthy = true →
      applyHeader h ⟨"Vary", v⟩ = h.append "Vary" v.toStr) ∧
    (∀ (h : Headers) (x : String), (h.append "Vary" x).get "Vary" =
      (match h.get "Vary" with
       | none => some x
       | some old => some (old ++ ", " ++ x))) ∧
    (∀ (h : Headers) (k : String) (v : HVal), (k == "Vary") = false → v.truthy = true →
      applyHeader h ⟨k, v⟩ = h.set k v.toStr) ∧
    (∀ (req : Request) (cfg : CorsConfig) (rule : CORSOrigin) (o v : String),
      resolveOrigin (mergedOptions req cfg).origin req.originHeader = .ok rule →
      truthyOrigin rule = true → isStarLit rule = false →
      toUpperStr req.method = "OPTIONS" →
      req.originHeader = some o → req.acrhHeader = some v → v ≠ "" →
      (mergedOptions req cfg).allowedHeaders = none →
      ∃ hs, cors req cfg = .ok hs ∧
        hs.get "Vary" = some "Origin, Access-Control-Request-Headers") := by
  refine ⟨applyHeader_vary_append, get_append_vary, applyHeader_set, ?_⟩
  intro req cfg rule o v hres hgate hstar hm hro ha hv hah
  have hmb : (toUpperStr req.method == "OPTIONS") = true := by simp [hm]
  have hv2 : (v == "") = false := by simpa using hv
  have hw : (!truthyOrigin rule || isStarLit rule) = false := by
    rw [hgate, hstar]
    rfl
  have hjf : optTruthy
      ((withOrigin (mergedOptions req cfg) rule).allowedHeaders.map joinStrOrList) =
      false := by
    rw [withOrigin_allowedHeaders, hah]
    rfl
  refine ⟨_, cors_ok req cfg rule hres, ?_⟩
  have hVall : (corsResolved req (withOrigin (mergedOptions req cfg) rule)).getAll
      "Vary" = ["Origin", "Access-Control-Request-Headers"] := by
    rw [getAll_peel_tail req _ _ hgate hmb (by decide) (by decide) (by decide)]
    rw [getAll_vary_ah_reflect _ _ _ v hjf ha hv2]
    rw [getAll_peel_inner _ _ _ (by decide) (by decide)]
    rw [getAll_vary_origin_nonwildcard _ _ _ hw]
    rw [getAll_nil]
    rfl
  rw [get_eq_pair _ _ _ _ hVall]
  rfl

/-- Witness for C6: the `appends to an existing Vary header` test of
the repository, plus the two applyHeader behaviours at concrete
inputs. -/
theorem claimC6_witness :
    applyHeader ⟨[("vary", "Origin")]⟩ ⟨"Vary", .str "X"⟩ =
      Headers.append ⟨[("vary", "Origin")]⟩ "Vary" "X" ∧
    (Headers.append ⟨[("vary", "Origin")]⟩ "Vary" "X").get "Vary" =
      (match (Headers.mk [("vary", "Origin")]).get "Vary" with
       | none => some "X"
       | some old => some (old ++ ", " ++ "X")) ∧
    applyHeader ⟨[]⟩ ⟨"Content-Length", .str "0"⟩ =
      Headers.set ⟨[]⟩ "Content-Length" "0" ∧
    (∃ hs, cors ⟨"OPTIONS", some "https://example.com", some "X-Header-1,X-Header-2"⟩
        (.opts { origin := some (.val (.str "https://example-1.com")) }) = .ok hs ∧
      hs.get "Vary" = some "Origin, Access-Control-Request-Headers") :=
  ⟨claimC6.1 ⟨[("vary", "Origin")]⟩ (.str "X") (by decide),
   claimC6.2.1 ⟨[("vary", "Origin")]⟩ "X",
   claimC6.2.2.1 ⟨[]⟩ "Content-Length" (.str "0") (by decide) (by decide),
   claimC6.2.2.2 ⟨"OPTIONS", some "https://example.com", some "X-Header-1,X-Header-2"⟩
     (.opts { origin := some (.val (.str "https://example-1.com")) })
     (.str "https://example-1.com") "https://example.com" "X-Header-1,X-Header-2"
     rfl rfl rfl rfl rfl rfl (by decide) rfl⟩

theorem optTruthy_some (x : Option String) (h : optTruthy x = true) :
    ∃ v, x = some v ∧ (v == "") = false := by
  cases x with
  | none => cases h
  | some v =>
    refine ⟨v, rfl, ?_⟩
    by_cases hv : (v == "") = true
    · rw [optTruthy, bne, hv] at h
      cases h
    · simpa using hv

/-- The `Vary` values contributed by the allowed-headers block: nothing,
or one `Access-Control-Request-Headers` entry. -/
theorem getAll_vary_ah_block_cases (h : Headers) (o : ResolvedOptions) (req : Request) :
    ((configureAllowedHeaders o req).foldl applyHeader h).getAll "Vary" =
      h.getAll "Vary" ∨
    ((configureAllowedHeaders o req).foldl applyHeader h).getAll "Vary" =
      h.getAll "Vary" ++ ["Access-Control-Request-Headers"] := by
  by_cases h1 : optTruthy (o.allowedHeaders.map joinStrOrList) = true
  · left
    exact getAll_vary_ah_config _ _ _ h1
  · have h1f : optTruthy (o.allowedHeaders.map joinStrOrList) = false := by simpa using h1
    by_cases h2 : optTruthy req.acrhHeader = true
    · obtain ⟨v, ha, hv⟩ := optTruthy_some _ h2
      right
      exact getAll_vary_ah_reflect _ _ _ v h1f ha hv
    · have h2f : optTruthy req.acrhHeader = false := by simpa using h2
      left
      rw [configureAllowedHeaders_empty o req h1f h2f, List.foldl_nil]

/-! ### Claim C4 (amended) -/

/-- Claim C4, amended for the empty string: for a configuration whose
resolved origin is a string `s`, a non-empty non-wildcard `s` is
emitted as `Access-Control-Allow-Origin: s` with an `Origin` entry in
`Vary`, independently of the request's own `Origin` header; the exact
string `"*"` takes the wildcard branch (`Access-Control-Allow-Origin:
*`, no origin-related `Vary`); and the empty string is falsy, so the
origin gate disables CORS and the collection is empty. -/
theorem claimC4 (req : Request) (cfg : CorsConfig) (s : String)
    (hres : resolveOrigin (mergedOptions req cfg).origin req.originHeader = .ok (.str s)) :
    (s ≠ "" → s ≠ "*" →
      ∃ hs, cors req cfg = .ok hs ∧
        hs.get "Access-Control-Allow-Origin" = some s ∧
        "Origin" ∈ hs.getAll "Vary") ∧
    (s = "*" →
      ∃ hs, cors req cfg = .ok hs ∧
        hs.get "Access-Control-Allow-Origin" = some "*" ∧
        "Origin" ∉ hs.getAll "Vary") ∧
    (s = "" → cors req cfg = .ok ⟨[]⟩) := by
  refine ⟨?_, ?_, ?_⟩
  · intro hs0 hstar
    have hgate : truthyOrigin (CORSOrigin.str s) = true := by
      simp [truthyOrigin, bne, hs0]
    have hw : (!truthyOrigin (CORSOrigin.str s) || isStarLit (CORSOrigin.str s)) = false := by
      simp [hgate, isStarLit, hstar]
    refine ⟨_, cors_ok req cfg _ hres, ?_, ?_⟩
    · by_cases hmm : (toUpperStr req.method == "OPTIONS") = true
      · refine get_eq_single _ _ _ ?_
        rw [getAll_peel_tail req _ _ hgate hmm (by decide) (by decide) (by decide)]
        rw [getAll_skip_allowedHeaders _ _ _ _ (by decide) (by decide)]
        rw [getAll_peel_inner _ _ _ (by decide) (by decide)]
        exact getAll_acao_origin_fixed _ _ _ s hw rfl
      · have hmm2 : (toUpperStr req.method == "OPTIONS") = false := by simpa using hmm
        refine get_eq_single _ _ _ ?_
        rw [corsResolved_actual req _ hgate hmm2]
        rw [getAll_skip_exposed _ _ _ (by decide)]
        rw [getAll_skip_credentials _ _ _ (by decide)]
        exact getAll_acao_origin_fixed _ _ _ s hw rfl
    · have hbase : ((configureOrigin (withOrigin (mergedOptions req cfg) (.str s)) req).foldl
          applyHeader ⟨[]⟩).getAll "Vary" = ["Origin"] := by
        rw [getAll_vary_origin_nonwildcard _ _ _ hw, getAll_nil]
        rfl
      by_cases hmm : (toUpperStr req.method == "OPTIONS") = true
      · have hV := getAll_vary_ah_block_cases
          (applyEntry
            (applyEntry
              ((configureOrigin (withOrigin (mergedOptions req cfg) (.str s)) req).foldl
                applyHeader ⟨[]⟩)
              (optEntry (configureCredentials (withOrigin (mergedOptions req cfg) (.str s)))))
            (optEntry (configureMethods (withOrigin (mergedOptions req cfg) (.str s)))))
          (withOrigin (mergedOptions req cfg) (.str s)) req
        rw [getAll_peel_inner _ _ _ (by decide) (by decide), hbase] at hV
        rw [getAll_peel_tail req _ _ hgate hmm (by decide) (by decide) (by decide)]
        rcases hV with hV | hV <;> rw [hV] <;> decide
      · have hmm2 : (toUpperStr req.method == "OPTIONS") = false := by simpa using hmm
        rw [corsResolved_actual req _ hgate hmm2]
        rw [getAll_skip_exposed _ _ _ (by decide)]
        rw [getAll_skip_credentials _ _ _ (by decide)]
        rw [hbase]
        decide
  · intro hstar
    subst hstar
    have hgate : truthyOrigin (CORSOrigin.str "*") = true := rfl
    have hw : (!truthyOrigin (CORSOrigin.str "*") || isStarLit (CORSOrigin.str "*")) = true :=
      rfl
    refine ⟨_, cors_ok req cfg _ hres, ?_, ?_⟩
    · by_cases hmm : (toUpperStr req.method == "OPTIONS") = true
      · refine get_eq_single _ _ _ ?_
        rw [getAll_peel_tail req _ _ hgate hmm (by decide) (by decide) (by decide)]
        rw [getAll_skip_allowedHeaders _ _ _ _ (by decide) (by decide)]
        rw [getAll_peel_inner _ _ _ (by decide) (by decide)]
        exact getAll_acao_origin_wildcard _ _ _ hw
      · have hmm2 : (toUpperStr req.method == "OPTIONS") = false := by simpa using hmm
        refine get_eq_single _ _ _ ?_
        rw [corsResolved_actual req _ hgate hmm2]
        rw [getAll_skip_exposed _ _ _ (by decide)]
        rw [getAll_skip_credentials _ _ _ (by decide)]
        exact getAll_acao_origin_wildcard _ _ _ hw
    · have hbase : ((configureOrigin (withOrigin (mergedOptions req cfg) (.str "*")) req).foldl
          applyHeader ⟨[]⟩).getAll "Vary" = [] := by
        rw [getAll_vary_origin_wildcard _ _ _ hw, getAll_nil]
      by_cases hmm : (toUpperStr req.method == "OPTIONS") = true
      · have hV := getAll_vary_ah_block_cases
          (applyEntry
            (applyEntry
              ((configureOrigin (withOrigin (mergedOptions req cfg) (.str "*")) req).foldl
                applyHeader ⟨[]⟩)
              (optEntry (configureCredentials (withOrigin (mergedOptions req cfg) (.str "*")))))
            (optEntry (configureMethods (withOrigin (mergedOptions req cfg) (.str "*")))))
          (withOrigin (mergedOptions req cfg) (.str "*")) req
        rw [getAll_peel_inner _ _ _ (by decide) (by decide), hbase] at hV
        rw [getAll_peel_tail req _ _ hgate hmm (by decide) (by decide) (by decide)]
        rcases hV with hV | hV <;> rw [hV] <;> decide
      · have hmm2 : (toUpperStr req.method == "OPTIONS") = false := by simpa using hmm
        rw [corsResolved_actual req _ hgate hmm2]
        rw [getAll_skip_exposed _ _ _ (by decide)]
        rw [getAll_skip_credentials _ _ _ (by decide)]
        rw [hbase]
        decide
  · intro hs0
    subst hs0
    rw [cors_ok req cfg _ hres]
    have hgf : truthyOrigin (CORSOrigin.str "") = false := rfl
    simp [corsResolved, buildHeadersArr, withOrigin_origin, hgf, applyHeaders]

/-- Witness for C4: a fixed origin `https://example-1.com` and the
explicit wildcard string. -/
theorem claimC4_witness :
    (∃ hs, cors ⟨"GET", some "https://example.com", none⟩
        (.opts { origin := some (.val (.str "https://example-1.com")) }) = .ok hs ∧
      hs.get "Access-Control-Allow-Origin" = some "https://example-1.com" ∧
      "Origin" ∈ hs.getAll "Vary") ∧
    (∃ hs, cors ⟨"GET", some "https://example.com", none⟩
        (.opts { origin := some (.val (.str "*")) }) = .ok hs ∧
      hs.get "Access-Control-Allow-Origin" = some "*" ∧
      "Origin" ∉ hs.getAll "Vary") :=
  ⟨(claimC4 ⟨"GET", some "https://example.com", none⟩
      (.opts { origin := some (.val (.str "https://example-1.com")) })
      "https://example-1.com" rfl).1 (by decide) (by decide),
   (claimC4 ⟨"GET", some "https://example.com", none⟩
      (.opts { origin := some (.val (.str "*")) }) "*" rfl).2.1 rfl⟩

/-! ### Claim C3 (amended) -/

/-- The origin-rule shapes of the reflect-if-allowed branch: the
literal `true`, a regular expression, or a list. -/
def isReflectShape : CORSOrigin → Bool
  | .bool b => b
  | .str _ => false
  | .regex _ => true
  | .list _ => true

theorem truthyOrigin_of_reflectShape (rule : CORSOrigin)
    (h : isReflectShape rule = true) : truthyOrigin rule = true := by
  cases rule <;> simp_all [isReflectShape, truthyOrigin]

theorem isStarLit_of_reflectShape (rule : CORSOrigin)
    (h : isReflectShape rule = true) : isStarLit rule = false := by
  cases rule <;> simp_all [isReflectShape, isStarLit]

theorem not_str_of_reflectShape (rule : CORSOrigin)
    (h : isReflectShape rule = true) : ∀ t, rule ≠ CORSOrigin.str t := by
  cases rule <;> simp_all [isReflectShape]

/-- Claim C3, amended for the empty-valued `Origin` header: for a
request with a non-empty `Origin` header `o` and a resolved origin rule
that is the literal `true`, a regular expression, or a list, the result
contains `Access-Control-Allow-Origin` equal to `o` iff
`isOriginAllowed` judges `o` allowed (`true` allows any origin, strings
compare with `===`, patterns test, lists recurse and the empty list
allows nothing), the header is absent otherwise, and an `Origin` entry
is in `Vary` either way. -/
theorem claimC3 (req : Request) (cfg : CorsConfig) (rule : CORSOrigin) (o : String)
    (hres : resolveOrigin (mergedOptions req cfg).origin req.originHeader = .ok rule)
    (hshape : isReflectShape rule = true)
    (hro : req.originHeader = some o) (ho : o ≠ "") :
    ∃ hs, cors req cfg = .ok hs ∧
      hs.get "Access-Control-Allow-Origin" =
        (if isOriginAllowed o rule then some o else none) ∧
      "Origin" ∈ hs.getAll "Vary" := by
  have hgate := truthyOrigin_of_reflectShape rule hshape
  have hstar := isStarLit_of_reflectShape rule hshape
  have hshape2 := not_str_of_reflectShape rule hshape
  have hw : (!truthyOrigin rule || isStarLit rule) = false := by
    rw [hgate, hstar]
    rfl
  have ho2 : (o == "") = false := by simpa using ho
  refine ⟨_, cors_ok req cfg rule hres, ?_, ?_⟩
  · by_cases hall : isOriginAllowed o rule = true
    · simp only [hall, if_true]
      by_cases hmm : (toUpperStr req.method == "OPTIONS") = true
      · refine get_eq_single _ _ _ ?_
        rw [getAll_peel_tail req _ _ hgate hmm (by decide) (by decide) (by decide)]
        rw [getAll_skip_allowedHeaders _ _ _ _ (by decide) (by decide)]
        rw [getAll_peel_inner _ _ _ (by decide) (by decide)]
        exact getAll_acao_origin_reflect_allowed _ _ _ o hw hshape2 hro ho2 hall
      · have hmm2 : (toUpperStr req.method == "OPTIONS") = false := by simpa using hmm
        refine get_eq_single _ _ _ ?_
        rw [corsResolved_actual req _ hgate hmm2]
        rw [getAll_skip_exposed _ _ _ (by decide)]
        rw [getAll_skip_credentials _ _ _ (by decide)]
        exact getAll_acao_origin_reflect_allowed _ _ _ o hw hshape2 hro ho2 hall
    · have hall2 : isOriginAllowed o rule = false := by simpa using hall
      have hra : reqOriginAllowed req.originHeader rule = false := by
        rw [hro, reqOriginAllowed]
        simp [ho2, hall2]
      simp only [hall2, Bool.false_eq_true, if_false]
      by_cases hmm : (toUpperStr req.method == "OPTIONS") = true
      · refine get_eq_none_of_getAll _ _ ?_
        rw [getAll_peel_tail req _ _ hgate hmm (by decide) (by decide) (by decide)]
        rw [getAll_skip_allowedHeaders _ _ _ _ (by decide) (by decide)]
        rw [getAll_peel_inner _ _ _ (by decide) (by decide)]
        rw [getAll_acao_origin_reflect_blocked _ _ _ hw hshape2 hra]
        rfl
      · have hmm2 : (toUpperStr req.method == "OPTIONS") = false := by simpa using hmm
        refine get_eq_none_of_getAll _ _ ?_
        rw [corsResolved_actual req _ hgate hmm2]
        rw [getAll_skip_exposed _ _ _ (by decide)]
        rw [getAll_skip_credentials _ _ _ (by decide)]
        rw [getAll_acao_origin_reflect_blocked _ _ _ hw hshape2 hra]
        rfl
  · have hbase : ((configureOrigin (withOrigin (mergedOptions req cfg) rule) req).foldl
        applyHeader ⟨[]⟩).getAll "Vary" = ["Origin"] := by
      rw [getAll_vary_origin_nonwildcard _ _ _ hw, getAll_nil]
      rfl
    by_cases hmm : (toUpperStr req.method == "OPTIONS") = true
    · have hV := getAll_vary_ah_block_cases
        (applyEntry
          (applyEntry
            ((configureOrigin (withOrigin (mergedOptions req cfg) rule) req).foldl
              applyHeader ⟨[]⟩)
            (optEntry (configureCredentials (withOrigin (mergedOptions req cfg) rule))))
          (optEntry (configureMethods (withOrigin (mergedOptions req cfg) rule))))
        (withOrigin (mergedOptions req cfg) rule) req
      rw [getAll_peel_inner _ _ _ (by decide) (by decide), hbase] at hV
      rw [getAll_peel_tail req _ _ hgate hmm (by decide) (by decide) (by decide)]
      rcases hV with hV | hV <;> rw [hV] <;> decide
    · have hmm2 : (toUpperStr req.method == "OPTIONS") = false := by simpa using hmm
      rw [corsResolved_actual req _ hgate hmm2]
      rw [getAll_skip_exposed _ _ _ (by decide)]
      rw [getAll_skip_credentials _ _ _ (by decide)]
      rw [hbase]
      decide

/-- Witness for C3: Scenario C — a regular expression origin matching
the request origin — and a two-element list matching nothing. -/
theorem claimC3_witness :
    (∃ hs, cors ⟨"GET", some "https://example.com", none⟩
        (.opts { origin := some (.val (.regex (fun s => s.endsWith "example.com"))) }) =
        .ok hs ∧
      hs.get "Access-Control-Allow-Origin" =
        (if isOriginAllowed "https://example.com"
            (.regex (fun s => s.endsWith "example.com")) then some "https://example.com"
         else none) ∧
      "Origin" ∈ hs.getAll "Vary") ∧
    (∃ hs, cors ⟨"GET", some "https://example.com", none⟩
        (.opts { origin := some (.val (.list [.regex (fun s => s.endsWith "foo.com"),
          .str "bar.com"])) }) = .ok hs ∧
      hs.get "Access-Control-Allow-Origin" =
        (if isOriginAllowed "https://example.com"
            (.list [.regex (fun s => s.endsWith "foo.com"), .str "bar.com"]) then
          some "https://example.com"
         else none) ∧
      "Origin" ∈ hs.getAll "Vary") :=
  ⟨claimC3 ⟨"GET", some "https://example.com", none⟩
      (.opts { origin := some (.val (.regex (fun s => s.endsWith "example.com"))) })
      (.regex (fun s => s.endsWith "example.com")) "https://example.com"
      rfl rfl rfl (by decide),
   claimC3 ⟨"GET", some "https://example.com", none⟩
      (.opts { origin := some (.val (.list [.regex (fun s => s.endsWith "foo.com"),
        .str "bar.com"])) })
      (.list [.regex (fun s => s.endsWith "foo.com"), .str "bar.com"]) "https://example.com"
      rfl rfl rfl (by decide)⟩

/-! ### Claim C1 (amended) -/

/-- Claim C1, amended for the preflight reflection of
`Access-Control-Request-Headers`: for every request without an `Origin`
header under the default configuration, the result contains
`Access-Control-Allow-Origin: *`; `Vary` is absent unless the method
upper-cases to `OPTIONS` and the request carries a non-empty
`Access-Control-Request-Headers` header, in which case `Vary` holds
exactly the single value `Access-Control-Request-Headers`. -/
theorem claimC1 (m : String) (acrh : Option String) :
    ∃ hs, cors ⟨m, none, acrh⟩ (.opts {}) = .ok hs ∧
      hs.get "Access-Control-Allow-Origin" = some "*" ∧
      hs.getAll "Vary" =
        (if (toUpperStr m == "OPTIONS") && optTruthy acrh then
          ["Access-Control-Request-Headers"]
         else []) := by
  have hgate : truthyOrigin (CORSOrigin.str "*") = true := rfl
  have hw : (!truthyOrigin (CORSOrigin.str "*") || isStarLit (CORSOrigin.str "*")) = true :=
    rfl
  refine ⟨_, cors_ok ⟨m, none, acrh⟩ (.opts {}) (.str "*") rfl, ?_, ?_⟩
  · by_cases hmm : (toUpperStr m == "OPTIONS") = true
    · refine get_eq_single _ _ _ ?_
      rw [getAll_peel_tail _ _ _ hgate hmm (by decide) (by decide) (by decide)]
      rw [getAll_skip_allowedHeaders _ _ _ _ (by decide) (by decide)]
      rw [getAll_peel_inner _ _ _ (by decide) (by decide)]
      exact getAll_acao_origin_wildcard _ _ _ hw
    · have hmm2 : (toUpperStr m == "OPTIONS") = false := by simpa using hmm
      refine get_eq_single _ _ _ ?_
      rw [corsResolved_actual _ _ hgate hmm2]
      rw [getAll_skip_exposed _ _ _ (by decide)]
      rw [getAll_skip_credentials _ _ _ (by decide)]
      exact getAll_acao_origin_wildcard _ _ _ hw
  · by_cases hmm : (toUpperStr m == "OPTIONS") = true
    · rw [getAll_peel_tail _ _ _ hgate hmm (by decide) (by decide) (by decide)]
      have hjf : optTruthy
          ((withOrigin (mergedOptions ⟨m, none, acrh⟩ (.opts {}))
            (.str "*")).allowedHeaders.map joinStrOrList) = false := rfl
      by_cases hacrh : optTruthy acrh = true
      · obtain ⟨v, hav, hv⟩ := optTruthy_some acrh hacrh
        rw [getAll_vary_ah_reflect _ _ _ v hjf hav hv]
        rw [getAll_peel_inner _ _ _ (by decide) (by decide)]
        rw [getAll_vary_origin_wildcard _ _ _ hw, getAll_nil]
        simp [hmm, hacrh]
      · have hacrh2 : optTruthy acrh = false := by simpa using hacrh
        rw [configureAllowedHeaders_empty _ _ hjf hacrh2, List.foldl_nil]
        rw [getAll_peel_inner _ _ _ (by decide) (by decide)]
        rw [getAll_vary_origin_wildcard _ _ _ hw, getAll_nil]
        simp [hacrh2]
    · have hmm2 : (toUpperStr m == "OPTIONS") = false := by simpa using hmm
      rw [corsResolved_actual _ _ hgate hmm2]
      rw [getAll_skip_exposed _ _ _ (by decide)]
      rw [getAll_skip_credentials _ _ _ (by decide)]
      rw [getAll_vary_origin_wildcard _ _ _ hw, getAll_nil]
      simp [hmm2]

end Cors
